import Mathlib

/-!
# Verification of the hiperhealth consultation wizard core

A shallow embedding of the consultation state machine, the record
reconciler (`ResearchRepository`), and the report load/save/validate
helpers of the `research` backend, together with proofs about them.

Conventions used throughout:
* Python `None` is `Option.none`; a JSON column value is a `JVal`.
* `datetime` values are represented by their ISO-8601 string; Python's
  `datetime.fromisoformat` is modelled as the identity on well-formed
  strings (no claim touches malformed timestamps).
* SQLAlchemy `Float` columns are modelled by `Int`: no arithmetic is ever
  performed on them, they are only stored and compared.
* A SQLAlchemy table is a list of rows in insertion order; `query(...).first()`
  is `List.find?`, a bulk `delete()` is `List.filter`, autoincrement ids are
  drawn from a single `nextId` counter.
-/

/-- A JSON-like value, the model of a Python object stored in a JSON column
or produced by `json.loads`. -/
inductive JVal where
  | null
  | bool (b : Bool)
  | num (n : Int)
  | str (s : String)
  | arr (xs : List JVal)
  | obj (fields : List (String × JVal))

/-- Python truthiness of a JSON-like value (`if not x:` branches). -/
def jvalFalsy : JVal → Bool
  | .null => true
  | .bool b => !b
  | .num n => n == 0
  | .str s => s == ""
  | .arr xs => xs.isEmpty
  | .obj fs => fs.isEmpty

/-- Model of Python `str.lower()` (character-wise lowering). -/
def lowerStr (s : String) : String := ⟨s.data.map Char.toLower⟩

/-- Model of Python `str.endswith(t)` (character-list suffix test). -/
def endsWithStr (s t : String) : Bool := t.data.isSuffixOf s.data

/-- A row of the `patients` table (`models/ui.py`, class `Patient`). -/
structure PatientRow where
  id : Nat
  uuid : String
  age : Option Int
  gender : Option String
deriving DecidableEq

/-- A row of the `consultations` table (`models/ui.py`, class `Consultation`). -/
structure ConsultationRow where
  id : Nat
  patient_id : Option Nat
  timestamp : Option String
  lang : Option String
  weight_kg : Option Int
  height_cm : Option Int
  diet : Option String
  sleep_hours : Option Int
  physical_activity : Option String
  mental_exercises : Option String
  symptoms : Option String
  mental_health : Option String
  previous_tests : Option JVal
  wearable_data : Option JVal
  ai_diag_raw : Option JVal
  ai_exam_raw : Option JVal

/-- A row of the `diagnoses` table. -/
structure DiagnosisRow where
  id : Nat
  name : String
deriving DecidableEq

/-- A row of the `exams` table. -/
structure ExamRow where
  id : Nat
  name : String
deriving DecidableEq

/-- A row of the `consultation_diagnoses` association table, composite
primary key `(consultation_id, diagnosis_id)`. -/
structure ConsultationDiagnosisRow where
  consultation_id : Nat
  diagnosis_id : Nat
  accuracy : Option Int
  relevance : Option Int
  usefulness : Option Int
  coherence : Option Int
  comments : Option String
deriving DecidableEq

/-- A row of the `consultation_exams` association table, composite primary
key `(consultation_id, exam_id)`; carries an extra `safety` field. -/
structure ConsultationExamRow where
  consultation_id : Nat
  exam_id : Nat
  accuracy : Option Int
  relevance : Option Int
  usefulness : Option Int
  coherence : Option Int
  safety : Option String
  comments : Option String
deriving DecidableEq

/-- The relational store: the five tables of the research schema plus the
autoincrement counter. -/
@[ext]
structure Store where
  patients : List PatientRow
  consultations : List ConsultationRow
  diagnoses : List DiagnosisRow
  exams : List ExamRow
  consultationDiagnoses : List ConsultationDiagnosisRow
  consultationExams : List ConsultationExamRow
  nextId : Nat

/-- `ResearchRepository.get_patient_by_uuid`: first patient row whose uuid
matches. -/
def get_patient_by_uuid (s : Store) (uuid : String) : Option PatientRow :=
  s.patients.find? (fun p => decide (p.uuid = uuid))

/-- The `patient.consultations` relationship: consultation rows whose
foreign key points at the patient, in table order. -/
def patientConsultations (s : Store) (pid : Nat) : List ConsultationRow :=
  s.consultations.filter (fun c => decide (c.patient_id = some pid))

/-- The `consultation.selected_diagnoses` relationship. -/
def selectedDiagnosesOf (s : Store) (cid : Nat) : List ConsultationDiagnosisRow :=
  s.consultationDiagnoses.filter (fun r => decide (r.consultation_id = cid))

/-- The `consultation.selected_exams` relationship. -/
def selectedExamsOf (s : Store) (cid : Nat) : List ConsultationExamRow :=
  s.consultationExams.filter (fun r => decide (r.consultation_id = cid))

/-- `app/main.py` `_get_next_step`: derive the next wizard step from the
presence of persisted data. -/
def _get_next_step (s : Store) (p : PatientRow) : String :=
  match (patientConsultations s p.id).getLast? with
  | none => "demographics"
  | some c =>
    if p.age.isNone then "demographics"
    else if c.diet.isNone then "lifestyle"
    else if c.symptoms.isNone then "symptoms"
    else if c.mental_health.isNone then "mental"
    else if c.previous_tests.isNone then "tests"
    else if c.wearable_data.isNone then "wearable"
    else if (selectedDiagnosesOf s c.id).isEmpty then "diagnosis"
    else if (selectedExamsOf s c.id).isEmpty then "exams"
    else "complete"

/-- First rule of a rule table whose guard holds, or the default. -/
def firstApplicable : List (Bool × String) → String → String
  | [], d => d
  | (true, n) :: _, _ => n
  | (false, _) :: rules, d => firstApplicable rules d

/-- The step state machine as the specification words it: the first
applicable step in the fixed order, `demographics` when the patient has no
consultations or no age, and `complete` when every rule fails. -/
def nextStepSpec (s : Store) (p : PatientRow) : String :=
  match (patientConsultations s p.id).getLast? with
  | none => "demographics"
  | some c =>
    firstApplicable
      [ (p.age.isNone, "demographics"),
        (c.diet.isNone, "lifestyle"),
        (c.symptoms.isNone, "symptoms"),
        (c.mental_health.isNone, "mental"),
        (c.previous_tests.isNone, "tests"),
        (c.wearable_data.isNone, "wearable"),
        ((selectedDiagnosesOf s c.id).isEmpty, "diagnosis"),
        ((selectedExamsOf s c.id).isEmpty, "exams") ]
      "complete"

/-! ## Report helpers (`backend/app/reports.py` and legacy `app/reports.py`) -/

/-- An extracted report document: a Python dict of field/value pairs,
modelled as an association list with distinct keys. -/
abbrev FhirDoc := List (String × JVal)

/-- An uploaded file as the report helpers see it: its (client supplied)
filename and declared media type. -/
structure UploadFile where
  filename : String
  content_type : Option String

/-- Outcome of the black-box extraction collaborator on one file:
a field/value mapping, a value of another type, or one of the two
failure modes the code distinguishes. -/
inductive ExtractResult where
  | ok (doc : FhirDoc)
  | nonDict
  | extractError
  | otherError

/-- The report-extraction collaborator: its two allow-list configuration
attributes and the opaque `extract_report_data` capability. -/
structure Extractor where
  allowed_mimetypes : List String
  allowed_extensions : List String
  extract : UploadFile → ExtractResult

/-- Python dict assignment `d[k] = v`: overwrite in place when the key
exists, append otherwise. -/
def dictSet (d : FhirDoc) (k : String) (v : JVal) : FhirDoc :=
  if d.any (fun kv => decide (kv.1 = k)) then
    d.map (fun kv => if kv.1 = k then (k, v) else kv)
  else d ++ [(k, v)]

/-- The declared-media-type test `report.content_type in
extractor.allowed_mimetypes` (false for an absent media type, which is
never in the list). -/
def mimeAllowed (report : UploadFile) (extractor : Extractor) : Bool :=
  match report.content_type with
  | some ct => extractor.allowed_mimetypes.contains ct
  | none => false

/-- The filename-extension test
`any(filename_lower.endswith(f'.{ext}') for ext in allowed_extensions)`. -/
def extAllowed (report : UploadFile) (extractor : Extractor) : Bool :=
  extractor.allowed_extensions.any
    (fun ext => endsWithStr (lowerStr report.filename) ("." ++ ext))

/-- `validate_report_file` (identical in both report modules): reject a
filename already seen (case-insensitively), then reject unless the declared
media type or the lowercased filename extension is allowed. -/
def validate_report_file (report : UploadFile) (seen_filenames : List String)
    (extractor : Extractor) : Bool × Option String :=
  if lowerStr report.filename ∈ seen_filenames then
    (false, some "File already uploaded")
  else if !(mimeAllowed report extractor || extAllowed report extractor) then
    (false, some "Only PDF, PNG, JPEG, JPG files allowed")
  else
    (true, none)

/-- `process_uploaded_reports`: validate, extract and tag each uploaded
file in turn.  Returns the accumulated documents, the error signal of the
first failing file (the loop returns `[]` for the documents as soon as any
file fails), and the seen-filename set, which the loop mutates in place in
the source. -/
def process_uploaded_reports (extractor : Extractor) :
    List UploadFile → List String → List FhirDoc →
    List FhirDoc × Option String × List String
  | [], seen, acc => (acc, none, seen)
  | report :: rest, seen, acc =>
    if report.filename = "" then
      process_uploaded_reports extractor rest seen acc
    else
      match validate_report_file report seen extractor with
      | (false, msg) => ([], msg, seen)
      | (true, _) =>
        match extractor.extract report with
        | .extractError => ([], some "Failed to extract report data", seen)
        | .otherError => ([], some "Error processing report", seen)
        | .nonDict => ([], some "Failed to process report", seen)
        | .ok fhir =>
          process_uploaded_reports extractor rest
            (seen ++ [lowerStr report.filename])
            (acc ++ [dictSet fhir "filename" (.str report.filename)])

namespace BackendReports

/-- `backend/app/reports.py` `load_fhir_reports`: the stored JSON value,
or `[]` when it is falsy or not a list (logging only). -/
def load_fhir_reports (c : ConsultationRow) : List JVal :=
  match c.previous_tests with
  | none => []
  | some reports =>
    if jvalFalsy reports then []
    else match reports with
      | .arr l => l
      | _ => []

/-- `backend/app/reports.py` `save_fhir_reports` (success path): replace
the stored value wholesale with the given document list and commit. -/
def save_fhir_reports (c : ConsultationRow) (reports : List JVal) : ConsultationRow :=
  { c with previous_tests := some (.arr reports) }

end BackendReports

namespace LegacyReports

/-- The legacy consultation of `research/app/reports.py`, whose
`previous_tests` column holds a serialized text blob. -/
structure LegacyConsultation where
  previous_tests : Option String

/-- Legacy `load_fhir_reports`, parametrized by the two opaque library
collaborators it calls: `parse` models `json.loads` (`none` = decode
error) and `sanitize` models the `re.sub` cleanup applied before parsing.
Empty or absent text, a failed parse, or a parsed value that is neither a
string nor a list yield `[]`; a parsed string is parsed a second time
(double-encoded data) and must then be a list.  Every failure path is
caught in the source (`except` blocks), so the function is total. -/
def load_fhir_reports (parse : String → Option JVal) (sanitize : String → String) :
    LegacyConsultation → List JVal
  | ⟨none⟩ => []
  | ⟨some raw⟩ =>
    if raw = "" then []
    else
      match parse (sanitize raw) with
      | none => []
      | some (.str s) =>
        match parse s with
        | none => []
        | some (.arr l) => l
        | some _ => []
      | some (.arr l) => l
      | some _ => []

end LegacyReports

/-! ## The record reconciler (`models/repositories.py`) -/

/-- `datetime.fromisoformat(ts) if ts else None`: timestamps are modelled
by their ISO string, so the parse of a non-empty string is the string
itself. -/
def parseTimestamp : Option String → Option String
  | none => none
  | some s => if s = "" then none else some s

/-- A rating entry under `evaluations.ai_diag` / `evaluations.ai_exam`:
either a flat rating mapping or one wrapped under a `ratings` key. -/
inductive RatingEntry (α : Type) where
  | flat (r : α)
  | wrapped (r : α)

/-- Rating fields of a diagnosis association row.  A field that the
incoming mapping omits, or maps to `None`, is `none` either way: both
leave the column at its storage default. -/
structure DiagRating where
  accuracy : Option Int
  relevance : Option Int
  usefulness : Option Int
  coherence : Option Int
  comments : Option String
deriving DecidableEq

/-- Rating fields of an exam association row (extra `safety` field). -/
structure ExamRating where
  accuracy : Option Int
  relevance : Option Int
  usefulness : Option Int
  coherence : Option Int
  safety : Option String
  comments : Option String
deriving DecidableEq

/-- The empty diagnosis rating (`eval_data = {}`). -/
def emptyDiagRating : DiagRating := ⟨none, none, none, none, none⟩

/-- The empty exam rating (`eval_data = {}`). -/
def emptyExamRating : ExamRating := ⟨none, none, none, none, none, none⟩

/-- The `eval_data` computed for one selected diagnosis name: look the
name up in the `ai_diag` evaluation mapping; unwrap a `ratings` wrapper
when present, use the mapping directly otherwise, and fall back to the
empty rating when the name has no (truthy) entry.  A present-but-falsy
entry (`{}`) also yields the empty rating, which carries the same fields
as unwrapping it would. -/
def diagFieldsOf (em : List (String × RatingEntry DiagRating)) (n : String) : DiagRating :=
  match em.find? (fun kv => decide (kv.1 = n)) with
  | none => emptyDiagRating
  | some (_, .flat r) => r
  | some (_, .wrapped r) => r

/-- The `eval_data` computed for one selected exam name. -/
def examFieldsOf (em : List (String × RatingEntry ExamRating)) (n : String) : ExamRating :=
  match em.find? (fun kv => decide (kv.1 = n)) with
  | none => emptyExamRating
  | some (_, .flat r) => r
  | some (_, .wrapped r) => r

/-- The `patient` sub-mapping of a full record, as consumed by the
`for key, value in consultation_data.items(): if hasattr(...): setattr(...)`
loop.  A Python dict has unique keys, so the loop assigns each consultation
column at most once, independently of iteration order: the faithful model
is one optional assignment per column (`none` = key absent, `some v` = key
present with value `v`, which may itself be `None`).  Keys that are not
Consultation attributes (`age`, `gender`, arbitrary keys) fail the
`hasattr` test and are skipped, hence not represented. -/
structure PatientFieldsUpdate where
  lang : Option (Option String)
  weight_kg : Option (Option Int)
  height_cm : Option (Option Int)
  diet : Option (Option String)
  sleep_hours : Option (Option Int)
  physical_activity : Option (Option String)
  mental_exercises : Option (Option String)
  symptoms : Option (Option String)
  mental_health : Option (Option String)
  previous_tests : Option (Option JVal)
  wearable_data : Option (Option JVal)
  ai_diag_raw : Option (Option JVal)
  ai_exam_raw : Option (Option JVal)

/-- The patient sub-mapping with no keys at all. -/
def noPatientFields : PatientFieldsUpdate :=
  ⟨none, none, none, none, none, none, none, none, none, none, none, none, none⟩

/-- Apply the `setattr` loop: overwrite exactly the columns whose key is
present. -/
def applyPatientFields (c : ConsultationRow) (u : PatientFieldsUpdate) : ConsultationRow :=
  { c with
    lang := u.lang.getD c.lang,
    weight_kg := u.weight_kg.getD c.weight_kg,
    height_cm := u.height_cm.getD c.height_cm,
    diet := u.diet.getD c.diet,
    sleep_hours := u.sleep_hours.getD c.sleep_hours,
    physical_activity := u.physical_activity.getD c.physical_activity,
    mental_exercises := u.mental_exercises.getD c.mental_exercises,
    symptoms := u.symptoms.getD c.symptoms,
    mental_health := u.mental_health.getD c.mental_health,
    previous_tests := u.previous_tests.getD c.previous_tests,
    wearable_data := u.wearable_data.getD c.wearable_data,
    ai_diag_raw := u.ai_diag_raw.getD c.ai_diag_raw,
    ai_exam_raw := u.ai_exam_raw.getD c.ai_exam_raw }

/-- The `meta` sub-mapping (only its `timestamp` key is read by
`update_consultation`). -/
structure RecordMeta where
  timestamp : Option String

/-- The `evaluations` sub-mapping; an absent `evaluations` key behaves as
`{}`, i.e. both fields `none`. -/
structure Evaluations where
  ai_diag : Option (List (String × RatingEntry DiagRating))
  ai_exam : Option (List (String × RatingEntry ExamRating))

/-- The nested full patient record passed to `update_consultation`.
Optional fields model optional dict keys. -/
structure FullRecord where
  meta : RecordMeta
  patient : PatientFieldsUpdate
  ai_diag : Option JVal
  ai_exam : Option JVal
  selected_diagnoses : Option (List String)
  selected_exams : Option (List String)
  evaluations : Evaluations

/-- The `query(Diagnosis).filter(Diagnosis.name == ...).first()` lookup. -/
def lookupDiagName (s : Store) (n : String) : Option DiagnosisRow :=
  s.diagnoses.find? (fun d => decide (d.name = n))

/-- The `query(Exam).filter(Exam.name == ...).first()` lookup. -/
def lookupExamName (s : Store) (n : String) : Option ExamRow :=
  s.exams.find? (fun e => decide (e.name = n))

/-- `ResearchRepository.get_or_create_diagnosis`: find the diagnosis by
name, or insert a fresh row. -/
def get_or_create_diagnosis (s : Store) (diagnosis_name : String) :
    Store × DiagnosisRow :=
  match lookupDiagName s diagnosis_name with
  | some d => (s, d)
  | none =>
    let d : DiagnosisRow := ⟨s.nextId, diagnosis_name⟩
    ({ s with diagnoses := s.diagnoses ++ [d], nextId := s.nextId + 1 }, d)

/-- `ResearchRepository.get_or_create_exam`. -/
def get_or_create_exam (s : Store) (exam_name : String) : Store × ExamRow :=
  match lookupExamName s exam_name with
  | some e => (s, e)
  | none =>
    let e : ExamRow := ⟨s.nextId, exam_name⟩
    ({ s with exams := s.exams ++ [e], nextId := s.nextId + 1 }, e)

/-- One iteration of the `for diag_name in selected_diagnoses` loop:
resolve or create the diagnosis and add one association row carrying the
rating fields looked up for the name. -/
def insertDiagStep (cid : Nat) (em : List (String × RatingEntry DiagRating))
    (s : Store) (n : String) : Store :=
  let sd := get_or_create_diagnosis s n
  let f := diagFieldsOf em n
  { sd.1 with
    consultationDiagnoses := sd.1.consultationDiagnoses ++
      [⟨cid, sd.2.id, f.accuracy, f.relevance, f.usefulness, f.coherence, f.comments⟩] }

/-- The `for diag_name in full_patient_record['selected_diagnoses']` loop. -/
def insertDiagnoses (cid : Nat) (em : List (String × RatingEntry DiagRating)) :
    Store → List String → Store
  | s, [] => s
  | s, n :: rest => insertDiagnoses cid em (insertDiagStep cid em s n) rest

/-- One iteration of the `for exam_name in selected_exams` loop. -/
def insertExamStep (cid : Nat) (em : List (String × RatingEntry ExamRating))
    (s : Store) (n : String) : Store :=
  let se := get_or_create_exam s n
  let f := examFieldsOf em n
  { se.1 with
    consultationExams := se.1.consultationExams ++
      [⟨cid, se.2.id, f.accuracy, f.relevance, f.usefulness, f.coherence, f.safety, f.comments⟩] }

/-- The `for exam_name in full_patient_record['selected_exams']` loop. -/
def insertExams (cid : Nat) (em : List (String × RatingEntry ExamRating)) :
    Store → List String → Store
  | s, [] => s
  | s, n :: rest => insertExams cid em (insertExamStep cid em s n) rest

/-- A consultation row with every data column absent. -/
def blankConsultation (id pid : Nat) : ConsultationRow :=
  ⟨id, some pid, none, none, none, none, none, none, none, none, none, none,
   none, none, none, none⟩

/-- `patient.consultations[-1] if patient.consultations else None`, with
`Consultation(patient_id=patient.id)` added when the patient has none.
The fresh row is modelled with its flushed autoincrement id; live flows
never reach this branch, since a patient is always created together with
its first consultation. -/
def resolveConsultation (s : Store) (pid : Nat) : Store × ConsultationRow :=
  match (patientConsultations s pid).getLast? with
  | some c => (s, c)
  | none =>
    let c := blankConsultation s.nextId pid
    ({ s with consultations := s.consultations ++ [c], nextId := s.nextId + 1 }, c)

/-- The field updates `update_consultation` applies to the resolved
consultation: the `patient` sub-mapping, then the parsed `meta.timestamp`,
then the wholesale `ai_diag` / `ai_exam` raw payloads. -/
def reviseConsultation (c : ConsultationRow) (r : FullRecord) : ConsultationRow :=
  { (applyPatientFields c r.patient) with
    timestamp := parseTimestamp r.meta.timestamp,
    ai_diag_raw := r.ai_diag,
    ai_exam_raw := r.ai_exam }

/-- Write the mutated consultation object back: the row with its id takes
the new value. -/
def replaceConsultation (l : List ConsultationRow) (c : ConsultationRow) :
    List ConsultationRow :=
  l.map (fun x => if x.id = c.id then c else x)

/-- Write the mutated consultation object back and clear all existing
evaluation data of the consultation ("Clear old evaluation data to prevent
duplicates"): the two bulk deletes of `update_consultation`. -/
def wipeAssociations (s : Store) (c : ConsultationRow) : Store :=
  { s with
    consultations := replaceConsultation s.consultations c,
    consultationDiagnoses :=
      s.consultationDiagnoses.filter (fun x => decide (x.consultation_id ≠ c.id)),
    consultationExams :=
      s.consultationExams.filter (fun x => decide (x.consultation_id ≠ c.id)) }

/-- The guarded diagnosis-insertion block of `update_consultation`: it
runs only when both `'ai_diag' in evaluations` and
`'selected_diagnoses' in full_patient_record` hold. -/
def applyDiagPhase (s : Store) (cid : Nat) (r : FullRecord) : Store :=
  match r.evaluations.ai_diag, r.selected_diagnoses with
  | some em, some names => insertDiagnoses cid em s names
  | _, _ => s

/-- The guarded exam-insertion block of `update_consultation`. -/
def applyExamPhase (s : Store) (cid : Nat) (r : FullRecord) : Store :=
  match r.evaluations.ai_exam, r.selected_exams with
  | some em, some names => insertExams cid em s names
  | _, _ => s

/-- `ResearchRepository.update_consultation`: resolve the patient (or fail
with the not-found signal `none`), resolve or create the consultation,
overwrite its fields, delete every association row of the consultation,
then re-insert one row per selected name — the diagnosis (resp. exam)
loop runs only when both `'ai_diag' in evaluations` and
`'selected_diagnoses' in full_patient_record` (resp. `ai_exam` /
`selected_exams`).  Returns the new store and the updated patient's id. -/
def update_consultation (s : Store) (patient_uuid : String) (r : FullRecord) :
    Store × Option Nat :=
  match get_patient_by_uuid s patient_uuid with
  | none => (s, none)
  | some p =>
    let sc := resolveConsultation s p.id
    let c := reviseConsultation sc.2 r
    (applyExamPhase (applyDiagPhase (wipeAssociations sc.1 c) c.id r) c.id r, some p.id)

/-- `ResearchRepository.delete_patient`.  The `Patient.consultations`
relationship declares no delete cascade, so deleting the patient removes
only the patient row; SQLAlchemy's unit of work nulls the `patient_id`
foreign key of the loaded consultations, and consultation and association
rows stay in the store. -/
def delete_patient (s : Store) (patient_uuid : String) : Store × Bool :=
  match get_patient_by_uuid s patient_uuid with
  | none => (s, false)
  | some p =>
    ({ s with
        patients := s.patients.filter (fun q => decide (q.id ≠ p.id)),
        consultations := s.consultations.map
          (fun c => if c.patient_id = some p.id then { c with patient_id := none } else c) },
     true)

/-- Well-formedness of a store: the uniqueness constraints of the schema
(primary keys, the unique `uuid` and `name` columns) plus freshness of the
autoincrement counter. -/
structure Store.WF (s : Store) : Prop where
  patient_ids : (s.patients.map (fun p => p.id)).Nodup
  patient_uuids : (s.patients.map (fun p => p.uuid)).Nodup
  consultation_ids : (s.consultations.map (fun c => c.id)).Nodup
  diagnosis_ids : (s.diagnoses.map (fun d => d.id)).Nodup
  diagnosis_names : (s.diagnoses.map (fun d => d.name)).Nodup
  exam_ids : (s.exams.map (fun e => e.id)).Nodup
  exam_names : (s.exams.map (fun e => e.name)).Nodup
  cd_keys : (s.consultationDiagnoses.map (fun r => (r.consultation_id, r.diagnosis_id))).Nodup
  ce_keys : (s.consultationExams.map (fun r => (r.consultation_id, r.exam_id))).Nodup
  consultation_fresh : ∀ c ∈ s.consultations, c.id < s.nextId
  diagnosis_fresh : ∀ d ∈ s.diagnoses, d.id < s.nextId
  exam_fresh : ∀ e ∈ s.exams, e.id < s.nextId

/-- The diagnosis names the insertion block iterates over: the selected
list when both guards hold, nothing otherwise. -/
def diagSelections (r : FullRecord) : List String :=
  match r.evaluations.ai_diag, r.selected_diagnoses with
  | some _, some names => names
  | _, _ => []

/-- The evaluation mapping the diagnosis block consults (empty when the
block does not run). -/
def diagEvalMap (r : FullRecord) : List (String × RatingEntry DiagRating) :=
  match r.evaluations.ai_diag, r.selected_diagnoses with
  | some em, some _ => em
  | _, _ => []

/-- The exam names the insertion block iterates over. -/
def examSelections (r : FullRecord) : List String :=
  match r.evaluations.ai_exam, r.selected_exams with
  | some _, some names => names
  | _, _ => []

/-- The evaluation mapping the exam block consults. -/
def examEvalMap (r : FullRecord) : List (String × RatingEntry ExamRating) :=
  match r.evaluations.ai_exam, r.selected_exams with
  | some em, some _ => em
  | _, _ => []

/-- Id of the diagnosis row a name resolves to (0 when absent; only used
where presence is known). -/
def diagIdOf (s : Store) (n : String) : Nat :=
  ((lookupDiagName s n).map (fun d => d.id)).getD 0

/-- Id of the exam row a name resolves to. -/
def examIdOf (s : Store) (n : String) : Nat :=
  ((lookupExamName s n).map (fun e => e.id)).getD 0

/-- The association row the diagnosis loop creates for one selected name,
with the name resolved against a given store. -/
def diagRowFor (s : Store) (cid : Nat) (em : List (String × RatingEntry DiagRating))
    (n : String) : ConsultationDiagnosisRow :=
  let f := diagFieldsOf em n
  ⟨cid, diagIdOf s n, f.accuracy, f.relevance, f.usefulness, f.coherence, f.comments⟩

/-- The association row the exam loop creates for one selected name. -/
def examRowFor (s : Store) (cid : Nat) (em : List (String × RatingEntry ExamRating))
    (n : String) : ConsultationExamRow :=
  let f := examFieldsOf em n
  ⟨cid, examIdOf s n, f.accuracy, f.relevance, f.usefulness, f.coherence,
   f.safety, f.comments⟩

/-- The part of `Store.WF` that the diagnosis interning fold maintains:
unique diagnosis ids and names, ids below the autoincrement counter. -/
def DiagInv (s : Store) : Prop :=
  (s.diagnoses.map (fun d => d.id)).Nodup ∧
  (s.diagnoses.map (fun d => d.name)).Nodup ∧
  ∀ d ∈ s.diagnoses, d.id < s.nextId

/-- The part of `Store.WF` that the exam interning fold maintains. -/
def ExamInv (s : Store) : Prop :=
  (s.exams.map (fun e => e.id)).Nodup ∧
  (s.exams.map (fun e => e.name)).Nodup ∧
  ∀ e ∈ s.exams, e.id < s.nextId

/-! ## Concrete fixtures used by the witnesses -/

/-- An extractor configured like the medical-report extractor. -/
def demoExtractor : Extractor :=
  ⟨["application/pdf", "image/png", "image/jpeg", "image/jpg"],
   ["pdf", "png", "jpeg", "jpg"],
   fun _ => .ok [("Bundle", .str "b")]⟩

/-- A fully blank full record (every optional key absent). -/
def emptyRecord : FullRecord :=
  ⟨⟨none⟩, noPatientFields, none, none, none, none, ⟨none, none⟩⟩

/-- The empty store. -/
def emptyStore : Store := ⟨[], [], [], [], [], [], 0⟩

/-- A demo patient. -/
def pDemo : PatientRow := ⟨1, "u-1", some 40, some "f"⟩

/-- A demo consultation of `pDemo` with every wizard field populated. -/
def cDemo : ConsultationRow :=
  ⟨2, some 1, some "2024-01-01T10:00:00", some "en", some 70, some 170,
   some "balanced", some 8, some "walk", some "chess", some "cough",
   some "fine", some (.arr []), some (.arr [.str "hr"]), none, none⟩

/-- A demo store: `pDemo` with `cDemo`, one diagnosis and one exam
reference row, and one association row each. -/
def sDemo : Store :=
  ⟨[pDemo], [cDemo], [⟨3, "Flu"⟩], [⟨4, "X-ray"⟩],
   [⟨2, 3, some 5, none, none, none, none⟩],
   [⟨2, 4, some 4, none, none, none, some "safe", none⟩], 5⟩

/-- A full record selecting one rated diagnosis (wrapped ratings) and one
unrated exam, as the AI-step handlers build it. -/
def rDemo : FullRecord :=
  ⟨⟨some "2024-01-02T09:30:00"⟩,
   { noPatientFields with diet := some (some "light"), symptoms := some (some "cough") },
   some (.obj [("summary", .str "s")]), none,
   some ["Flu", "Cold"], some ["X-ray"],
   ⟨some [("Flu", .wrapped ⟨some 5, some 4, none, none, some "ok"⟩)],
    some []⟩⟩

/-- What one `update_consultation` call guarantees about its result store
`S1`, for a patient `p` whose resolved consultation was `c0`: every table
other than the three it writes is untouched, the consultation row is
replaced in place, the association tables are wholesale-replaced with one
row per selected name, every selected name resolves in `S1`, the reference
tables only grow (and do not grow at all when every selected name already
resolves), and the reference-table invariants are maintained. -/
structure UpdateOutcome (s : Store) (r : FullRecord) (p : PatientRow)
    (c0 : ConsultationRow) (S1 : Store) : Prop where
  ret_patients : S1.patients = s.patients
  ret_consults : S1.consultations =
    replaceConsultation s.consultations (reviseConsultation c0 r)
  ret_cd : S1.consultationDiagnoses =
    s.consultationDiagnoses.filter (fun x => decide (x.consultation_id ≠ c0.id)) ++
      (diagSelections r).map (fun n => diagRowFor S1 c0.id (diagEvalMap r) n)
  ret_ce : S1.consultationExams =
    s.consultationExams.filter (fun x => decide (x.consultation_id ≠ c0.id)) ++
      (examSelections r).map (fun n => examRowFor S1 c0.id (examEvalMap r) n)
  diag_some : ∀ n ∈ diagSelections r, (lookupDiagName S1 n).isSome
  exam_some : ∀ n ∈ examSelections r, (lookupExamName S1 n).isSome
  diag_inv : DiagInv S1
  exam_inv : ExamInv S1
  diags_ext : ∃ t, S1.diagnoses = s.diagnoses ++ t
  exams_ext : ∃ t, S1.exams = s.exams ++ t
  nextId_mono : s.nextId ≤ S1.nextId
  no_growth : (∀ n ∈ diagSelections r, (lookupDiagName s n).isSome) →
    (∀ n ∈ examSelections r, (lookupExamName s n).isSome) →
    S1.diagnoses = s.diagnoses ∧ S1.exams = s.exams ∧ S1.nextId = s.nextId

/-- A full record selecting one diagnosis that has no rating entry (the
`ai_diag` evaluation mapping is present but empty). -/
def rNoRating : FullRecord :=
  ⟨⟨none⟩, noPatientFields, none, none, some ["X"], none, ⟨some [], none⟩⟩

/-- A full record whose `evaluations` mapping lacks the `ai_diag` key while
exam data is complete. -/
def rNoDiagKey : FullRecord :=
  ⟨⟨none⟩, noPatientFields, none, none, some ["Flu"], some ["X-ray"],
   ⟨none, some [("X-ray", .flat ⟨some 4, none, none, none, some "ok", none⟩)]⟩⟩

/-! ## Shared lemmas -/

theorem firstApplicable_cons (b : Bool) (n : String) (rules : List (Bool × String))
    (d : String) : firstApplicable ((b, n) :: rules) d = if b then n else firstApplicable rules d := by
  cases b <;> rfl

theorem validate_report_file_eq_of_fst_true (report : UploadFile)
    (seen : List String) (ex : Extractor)
    (h : (validate_report_file report seen ex).1 = true) :
    validate_report_file report seen ex = (true, none) := by
  unfold validate_report_file at h ⊢
  split_ifs at h ⊢
  simp_all

/-! ## Claim theorems -/

/-- C1: `_get_next_step` is a deterministic, side-effect-free total
function returning the first applicable step in the fixed order
demographics, lifestyle, symptoms, mental, tests, wearable, diagnosis,
exams, complete; `previous_tests` stored as an empty list counts as
present and does not yield `tests`. -/
theorem c1_next_step_first_applicable :
    (∀ (s : Store) (p : PatientRow), _get_next_step s p = nextStepSpec s p) ∧
    (∀ (s : Store) (p : PatientRow) (c : ConsultationRow),
      (patientConsultations s p.id).getLast? = some c →
      c.previous_tests = some (.arr []) → _get_next_step s p ≠ "tests") := by
  constructor
  · intro s p
    unfold _get_next_step nextStepSpec
    cases (patientConsultations s p.id).getLast? with
    | none => rfl
    | some c => simp only [firstApplicable_cons, firstApplicable]
  · intro s p c hc hprev
    unfold _get_next_step
    rw [hc]
    simp only [hprev, Option.isNone_some, Bool.false_eq_true, if_false]
    split_ifs <;> decide

/-- C1 witness: on the fully populated demo store the machine returns
`complete`, in particular not `tests` although the stored
`previous_tests` is the empty list. -/
theorem c1_witness : _get_next_step sDemo pDemo ≠ "tests" :=
  c1_next_step_first_applicable.2 sDemo pDemo cDemo rfl rfl

/-- C5: `update_consultation` on an unknown patient identifier returns the
not-found signal and leaves the store untouched. -/
theorem c5_update_not_found (s : Store) (uuid : String) (r : FullRecord)
    (h : get_patient_by_uuid s uuid = none) :
    update_consultation s uuid r = (s, none) := by
  unfold update_consultation
  rw [h]

/-- C5 witness: updating a patient that is not in the demo store fails
with `none` and returns the store unchanged. -/
theorem c5_witness : update_consultation sDemo "missing" rDemo = (sDemo, none) :=
  c5_update_not_found sDemo "missing" rDemo rfl

/-- C7: for a file whose name has not been seen yet, `validate_report_file`
accepts exactly when the declared media type is allowed or the lowercased
filename carries an allowed extension, and rejects with the allow-list
reason exactly when both tests fail. -/
theorem c7_validate_or_policy (report : UploadFile) (seen : List String)
    (ex : Extractor) (hfresh : lowerStr report.filename ∉ seen) :
    ((validate_report_file report seen ex).1 =
       (mimeAllowed report ex || extAllowed report ex)) ∧
    ((validate_report_file report seen ex).2 =
        some "Only PDF, PNG, JPEG, JPG files allowed" ↔
      (mimeAllowed report ex || extAllowed report ex) = false) := by
  unfold validate_report_file
  rw [if_neg hfresh]
  cases h : (mimeAllowed report ex || extAllowed report ex) <;> simp [h]

/-- C7 witness: a file with no declared media type but a `.pdf` extension
is accepted by the demo extractor configuration, and the accept bit is the
OR of the two tests. -/
theorem c7_witness :
    ((validate_report_file ⟨"Scan.PDF", none⟩ [] demoExtractor).1 =
       (mimeAllowed ⟨"Scan.PDF", none⟩ demoExtractor ||
        extAllowed ⟨"Scan.PDF", none⟩ demoExtractor)) ∧
    ((validate_report_file ⟨"Scan.PDF", none⟩ [] demoExtractor).2 =
        some "Only PDF, PNG, JPEG, JPG files allowed" ↔
      (mimeAllowed ⟨"Scan.PDF", none⟩ demoExtractor ||
       extAllowed ⟨"Scan.PDF", none⟩ demoExtractor) = false) :=
  c7_validate_or_policy ⟨"Scan.PDF", none⟩ [] demoExtractor (by decide)

/-- C8: the legacy `load_fhir_reports` never raises: it returns `[]` for
an absent or empty stored value, for a failed parse, and for a parsed or
unwrapped structure that is not a list; a double-encoded value (a JSON
string containing another JSON string) is parsed twice and the inner list
is returned. -/
theorem c8_legacy_load_fail_soft (parse : String → Option JVal)
    (sanitize : String → String) :
    (LegacyReports.load_fhir_reports parse sanitize ⟨none⟩ = []) ∧
    (LegacyReports.load_fhir_reports parse sanitize ⟨some ""⟩ = []) ∧
    (∀ raw, raw ≠ "" →
      (∀ l, parse (sanitize raw) ≠ some (.arr l)) →
      (∀ t, parse (sanitize raw) ≠ some (.str t)) →
      LegacyReports.load_fhir_reports parse sanitize ⟨some raw⟩ = []) ∧
    (∀ raw t, raw ≠ "" → parse (sanitize raw) = some (.str t) →
      (∀ l, parse t ≠ some (.arr l)) →
      LegacyReports.load_fhir_reports parse sanitize ⟨some raw⟩ = []) ∧
    (∀ raw t l, raw ≠ "" → parse (sanitize raw) = some (.str t) →
      parse t = some (.arr l) →
      LegacyReports.load_fhir_reports parse sanitize ⟨some raw⟩ = l) := by
  refine ⟨rfl, rfl, ?_, ?_, ?_⟩
  · intro raw hraw h1 h2
    simp only [LegacyReports.load_fhir_reports]
    rw [if_neg hraw]
    cases hp : parse (sanitize raw) with
    | none => rfl
    | some v =>
      cases v with
      | str t => exact absurd hp (h2 t)
      | arr l => exact absurd hp (h1 l)
      | _ => rfl
  · intro raw t hraw hp h1
    simp only [LegacyReports.load_fhir_reports]
    rw [if_neg hraw, hp]
    show (match parse t with
          | none => ([] : List JVal)
          | some (JVal.arr l) => l
          | some _ => []) = []
    cases hq : parse t with
    | none => rfl
    | some v =>
      cases v with
      | arr l => exact absurd hq (h1 l)
      | _ => rfl
  · intro raw t l hraw hp hq
    simp only [LegacyReports.load_fhir_reports]
    rw [if_neg hraw, hp]
    show (match parse t with
          | none => ([] : List JVal)
          | some (JVal.arr l) => l
          | some _ => []) = l
    rw [hq]

/-- A two-level concrete parser used to witness the double-encoding path. -/
def parseDemo : String → Option JVal := fun t =>
  if t = "OUTER" then some (.str "INNER")
  else if t = "INNER" then some (.arr [.str "x"]) else none

/-- C8 witness: a double-encoded stored text is unwrapped by parsing
twice and the inner list is returned. -/
theorem c8_witness :
    LegacyReports.load_fhir_reports parseDemo id ⟨some "OUTER"⟩ = [.str "x"] :=
  c8_legacy_load_fail_soft parseDemo id |>.2.2.2.2 "OUTER" "INNER" [.str "x"]
    (by decide) rfl rfl

/-- C9: saving a report list then loading it round-trips: the empty list
comes back as the empty list (not `None`), and a two-document list comes
back unchanged and in order. -/
theorem c9_save_load_roundtrip (c : ConsultationRow) :
    (BackendReports.load_fhir_reports (BackendReports.save_fhir_reports c []) = []) ∧
    (∀ d1 d2 : JVal,
      BackendReports.load_fhir_reports (BackendReports.save_fhir_reports c [d1, d2]) =
        [d1, d2]) :=
  ⟨rfl, fun _ _ => rfl⟩

/-- C6 counterexample: a batch whose second file repeats the first file's
name case-insensitively is rejected with the duplicate reason, but the
returned document list is empty — the first file's extracted document is
not retained in the result (only its lowercased name entered the seen
set). -/
theorem c6_counterexample :
    process_uploaded_reports demoExtractor
        [⟨"Report.PDF", some "application/pdf"⟩, ⟨"report.pdf", some "application/pdf"⟩]
        [] [] =
      ([], some "File already uploaded", ["report.pdf"]) := rfl

/-- C6 (amended): when a later file of a batch repeats an earlier file's
lowercased filename, the loop stops with the `File already uploaded`
reason and discards the batch: the returned document list is empty (the
first file's extracted document is not retained), while the first file's
lowercased name remains in the seen-filename set. -/
theorem c6_duplicate_discards_batch (ex : Extractor) (f1 f2 : UploadFile)
    (seen : List String) (doc : FhirDoc)
    (h1 : f1.filename ≠ "") (h2 : f2.filename ≠ "")
    (hdup : lowerStr f2.filename = lowerStr f1.filename)
    (hval : (validate_report_file f1 seen ex).1 = true)
    (hok : ex.extract f1 = .ok doc) :
    process_uploaded_reports ex [f1, f2] seen [] =
      ([], some "File already uploaded", seen ++ [lowerStr f1.filename]) := by
  have hv := validate_report_file_eq_of_fst_true f1 seen ex hval
  have hmem : lowerStr f2.filename ∈ seen ++ [lowerStr f1.filename] := by
    rw [hdup]; exact List.mem_append_right _ (List.mem_singleton.mpr rfl)
  simp only [process_uploaded_reports, if_neg h1, hv, hok, if_neg h2]
  unfold validate_report_file
  rw [if_pos hmem]

/-- C6 witness for the amended claim, at a concrete batch. -/
theorem c6_witness :
    process_uploaded_reports demoExtractor
        [⟨"a.pdf", some "application/pdf"⟩, ⟨"A.PDF", none⟩] ["other.png"] [] =
      ([], some "File already uploaded", ["other.png", "a.pdf"]) :=
  c6_duplicate_discards_batch demoExtractor ⟨"a.pdf", some "application/pdf"⟩
    ⟨"A.PDF", none⟩ ["other.png"] [("Bundle", .str "b")]
    (by decide) (by decide) (by decide) (by decide) rfl

/-- C2 counterexample: deleting the demo patient succeeds and removes the
patient row, but its consultation row and both association rows survive —
no cascade is configured, contradicting the claim that the consultation
and association rows are removed. -/
theorem c2_counterexample :
    (delete_patient sDemo "u-1").2 = true ∧
    get_patient_by_uuid (delete_patient sDemo "u-1").1 "u-1" = none ∧
    (delete_patient sDemo "u-1").1.consultations.length = 1 ∧
    (delete_patient sDemo "u-1").1.consultationDiagnoses.length = 1 ∧
    (delete_patient sDemo "u-1").1.consultationExams.length = 1 :=
  ⟨rfl, rfl, rfl, rfl, rfl⟩

/-- C2 (amended): `delete_patient` on a stored patient returns `true`,
removes the patient row (a later lookup by the same UUID returns `none`),
but deletes no `Consultation`, `ConsultationDiagnosis` or
`ConsultationExam` row: the patient's consultations survive with their
`patient_id` reference cleared. -/
theorem c2_delete_patient_no_cascade (s : Store) (uuid : String) (p : PatientRow)
    (hwf : s.WF) (hp : get_patient_by_uuid s uuid = some p) :
    (delete_patient s uuid).2 = true ∧
    get_patient_by_uuid (delete_patient s uuid).1 uuid = none ∧
    (delete_patient s uuid).1.consultations.length = s.consultations.length ∧
    (delete_patient s uuid).1.consultationDiagnoses = s.consultationDiagnoses ∧
    (delete_patient s uuid).1.consultationExams = s.consultationExams ∧
    (∀ c ∈ s.consultations, c.patient_id = some p.id →
      { c with patient_id := none } ∈ (delete_patient s uuid).1.consultations) := by
  have hpmem : p ∈ s.patients := List.mem_of_find?_eq_some hp
  have hpuuid : p.uuid = uuid := by
    have := List.find?_some hp
    simpa using this
  unfold delete_patient
  rw [hp]
  refine ⟨rfl, ?_, by simp, rfl, rfl, ?_⟩
  · unfold get_patient_by_uuid
    rw [List.find?_eq_none]
    intro q hq
    simp only [List.mem_filter] at hq
    obtain ⟨hqmem, hqid⟩ := hq
    simp only [decide_eq_true_eq] at hqid ⊢
    intro hquuid
    have : q = p := by
      apply List.inj_on_of_nodup_map hwf.patient_uuids hqmem hpmem
      rw [hquuid, hpuuid]
    exact hqid (by rw [this])
  · intro c hc hcp
    have : (if c.patient_id = some p.id then { c with patient_id := none } else c) ∈
        s.consultations.map
          (fun c => if c.patient_id = some p.id then { c with patient_id := none } else c) :=
      List.mem_map_of_mem _ hc
    rwa [if_pos hcp] at this

/-- C2 witness for the amended claim, on the demo store. -/
theorem c2_witness :
    (delete_patient sDemo "u-1").2 = true ∧
    get_patient_by_uuid (delete_patient sDemo "u-1").1 "u-1" = none ∧
    (delete_patient sDemo "u-1").1.consultations.length = sDemo.consultations.length ∧
    (delete_patient sDemo "u-1").1.consultationDiagnoses = sDemo.consultationDiagnoses ∧
    (delete_patient sDemo "u-1").1.consultationExams = sDemo.consultationExams ∧
    (∀ c ∈ sDemo.consultations, c.patient_id = some pDemo.id →
      { c with patient_id := none } ∈ (delete_patient sDemo "u-1").1.consultations) :=
  c2_delete_patient_no_cascade sDemo "u-1" pDemo
    ⟨by decide, by decide, by decide, by decide, by decide, by decide, by decide,
     by decide, by decide, by decide, by decide, by decide⟩ rfl

/-! ## Reconciler lemmas -/

theorem opt_getD_idem {α : Type} (o : Option α) (x : α) :
    o.getD (o.getD x) = o.getD x := by
  cases o <;> rfl

theorem reviseConsultation_id (c : ConsultationRow) (r : FullRecord) :
    (reviseConsultation c r).id = c.id := rfl

theorem reviseConsultation_patient_id (c : ConsultationRow) (r : FullRecord) :
    (reviseConsultation c r).patient_id = c.patient_id := rfl

theorem reviseConsultation_idem (c : ConsultationRow) (r : FullRecord) :
    reviseConsultation (reviseConsultation c r) r = reviseConsultation c r := by
  unfold reviseConsultation applyPatientFields
  simp only [ConsultationRow.mk.injEq, opt_getD_idem, and_self]

theorem replaceConsultation_map_id (l : List ConsultationRow) (c : ConsultationRow) :
    (replaceConsultation l c).map (fun x => x.id) = l.map (fun x => x.id) := by
  unfold replaceConsultation
  rw [List.map_map]
  apply List.map_congr_left
  intro a _
  by_cases h : a.id = c.id <;> simp [Function.comp, h]

theorem mem_replaceConsultation_eq (l : List ConsultationRow) (c x : ConsultationRow)
    (hx : x ∈ replaceConsultation l c) (h : x.id = c.id) : x = c := by
  unfold replaceConsultation at hx
  obtain ⟨a, _, ha⟩ := List.mem_map.mp hx
  by_cases hid : a.id = c.id
  · rw [if_pos hid] at ha; exact ha.symm
  · rw [if_neg hid] at ha; rw [ha] at hid; exact absurd h hid

theorem replaceConsultation_eq_self (l : List ConsultationRow) (c : ConsultationRow)
    (h : ∀ x ∈ l, x.id = c.id → x = c) : replaceConsultation l c = l := by
  unfold replaceConsultation
  have hcongr : ∀ x ∈ l, (if x.id = c.id then c else x) = x := by
    intro x hx
    by_cases hid : x.id = c.id
    · rw [if_pos hid, h x hx hid]
    · rw [if_neg hid]
  rw [List.map_congr_left hcongr]
  simp

theorem lookupDiagName_congr (s s' : Store) (n : String)
    (h : s.diagnoses = s'.diagnoses) : lookupDiagName s n = lookupDiagName s' n := by
  unfold lookupDiagName
  rw [h]

theorem lookupExamName_congr (s s' : Store) (n : String)
    (h : s.exams = s'.exams) : lookupExamName s n = lookupExamName s' n := by
  unfold lookupExamName
  rw [h]

theorem diagRowFor_congr (s s' : Store) (cid : Nat)
    (em : List (String × RatingEntry DiagRating)) (n : String)
    (h : s.diagnoses = s'.diagnoses) : diagRowFor s cid em n = diagRowFor s' cid em n := by
  unfold diagRowFor diagIdOf
  rw [lookupDiagName_congr s s' n h]

theorem examRowFor_congr (s s' : Store) (cid : Nat)
    (em : List (String × RatingEntry ExamRating)) (n : String)
    (h : s.exams = s'.exams) : examRowFor s cid em n = examRowFor s' cid em n := by
  unfold examRowFor examIdOf
  rw [lookupExamName_congr s s' n h]

theorem diagInv_mono (s s' : Store) (h : DiagInv s) (hd : s'.diagnoses = s.diagnoses)
    (hn : s.nextId ≤ s'.nextId) : DiagInv s' := by
  obtain ⟨h1, h2, h3⟩ := h
  exact ⟨hd ▸ h1, hd ▸ h2, fun d hdm => lt_of_lt_of_le (h3 d (hd ▸ hdm)) hn⟩

theorem examInv_mono (s s' : Store) (h : ExamInv s) (hd : s'.exams = s.exams)
    (hn : s.nextId ≤ s'.nextId) : ExamInv s' := by
  obtain ⟨h1, h2, h3⟩ := h
  exact ⟨hd ▸ h1, hd ▸ h2, fun e hem => lt_of_lt_of_le (h3 e (hd ▸ hem)) hn⟩

theorem Store.WF.diagInv (s : Store) (h : s.WF) : DiagInv s :=
  ⟨h.diagnosis_ids, h.diagnosis_names, h.diagnosis_fresh⟩

theorem Store.WF.examInv (s : Store) (h : s.WF) : ExamInv s :=
  ⟨h.exam_ids, h.exam_names, h.exam_fresh⟩

theorem applyDiagPhase_eq (s : Store) (cid : Nat) (r : FullRecord) :
    applyDiagPhase s cid r = insertDiagnoses cid (diagEvalMap r) s (diagSelections r) := by
  unfold applyDiagPhase diagEvalMap diagSelections
  cases r.evaluations.ai_diag <;> cases r.selected_diagnoses <;> rfl

theorem applyExamPhase_eq (s : Store) (cid : Nat) (r : FullRecord) :
    applyExamPhase s cid r = insertExams cid (examEvalMap r) s (examSelections r) := by
  unfold applyExamPhase examEvalMap examSelections
  cases r.evaluations.ai_exam <;> cases r.selected_exams <;> rfl

theorem diagSelections_eq_nil (r : FullRecord)
    (h : r.evaluations.ai_diag = none ∨ r.selected_diagnoses = none) :
    diagSelections r = [] := by
  unfold diagSelections
  rcases h with h | h
  · rw [h]
  · rw [h]; cases r.evaluations.ai_diag <;> rfl

theorem examSelections_eq_nil (r : FullRecord)
    (h : r.evaluations.ai_exam = none ∨ r.selected_exams = none) :
    examSelections r = [] := by
  unfold examSelections
  rcases h with h | h
  · rw [h]
  · rw [h]; cases r.evaluations.ai_exam <;> rfl

theorem get_or_create_diagnosis_spec (s : Store) (n : String) (h : DiagInv s) :
    DiagInv (get_or_create_diagnosis s n).1 ∧
    (get_or_create_diagnosis s n).1.patients = s.patients ∧
    (get_or_create_diagnosis s n).1.consultations = s.consultations ∧
    (get_or_create_diagnosis s n).1.exams = s.exams ∧
    (get_or_create_diagnosis s n).1.consultationDiagnoses = s.consultationDiagnoses ∧
    (get_or_create_diagnosis s n).1.consultationExams = s.consultationExams ∧
    s.nextId ≤ (get_or_create_diagnosis s n).1.nextId ∧
    (∃ t, (get_or_create_diagnosis s n).1.diagnoses = s.diagnoses ++ t) ∧
    lookupDiagName (get_or_create_diagnosis s n).1 n = some (get_or_create_diagnosis s n).2 ∧
    (∀ m d, lookupDiagName s m = some d →
      lookupDiagName (get_or_create_diagnosis s n).1 m = some d) ∧
    ((lookupDiagName s n).isSome → (get_or_create_diagnosis s n).1 = s) := by
  unfold get_or_create_diagnosis
  cases h0 : lookupDiagName s n with
  | some d =>
    exact ⟨h, rfl, rfl, rfl, rfl, rfl, le_refl _, ⟨[], by simp⟩, h0,
      fun m d1 hm => hm, fun _ => rfl⟩
  | none =>
    have hfind : s.diagnoses.find? (fun d => decide (d.name = n)) = none := h0
    have hnames : ∀ d ∈ s.diagnoses, d.name ≠ n := by
      intro d hd
      have := List.find?_eq_none.mp hfind d hd
      simpa using this
    obtain ⟨hids, hnm, hfresh⟩ := h
    refine ⟨⟨?_, ?_, ?_⟩, rfl, rfl, rfl, rfl, rfl, Nat.le_succ _,
      ⟨[⟨s.nextId, n⟩], rfl⟩, ?_, ?_, ?_⟩
    · rw [List.map_append, List.nodup_append]
      refine ⟨hids, by simp, ?_⟩
      intro a ha hb
      simp only [List.map_cons, List.map_nil, List.mem_singleton] at hb
      subst hb
      obtain ⟨d, hd, hdid⟩ := List.mem_map.mp ha
      exact absurd hdid (Nat.ne_of_lt (hfresh d hd))
    · rw [List.map_append, List.nodup_append]
      refine ⟨hnm, by simp, ?_⟩
      intro a ha hb
      simp only [List.map_cons, List.map_nil, List.mem_singleton] at hb
      subst hb
      obtain ⟨d, hd, hdn⟩ := List.mem_map.mp ha
      exact absurd hdn (hnames d hd)
    · intro d hd
      rcases List.mem_append.mp hd with hd | hd
      · exact Nat.lt_succ_of_lt (hfresh d hd)
      · simp only [List.mem_singleton] at hd
        subst hd
        exact Nat.lt_succ_self _
    · unfold lookupDiagName
      rw [List.find?_append, hfind]
      simp [List.find?]
    · intro m d1 hm
      unfold lookupDiagName at hm ⊢
      rw [List.find?_append, hm]
      rfl
    · intro hcontra
      simp at hcontra

theorem get_or_create_exam_spec (s : Store) (n : String) (h : ExamInv s) :
    ExamInv (get_or_create_exam s n).1 ∧
    (get_or_create_exam s n).1.patients = s.patients ∧
    (get_or_create_exam s n).1.consultations = s.consultations ∧
    (get_or_create_exam s n).1.diagnoses = s.diagnoses ∧
    (get_or_create_exam s n).1.consultationDiagnoses = s.consultationDiagnoses ∧
    (get_or_create_exam s n).1.consultationExams = s.consultationExams ∧
    s.nextId ≤ (get_or_create_exam s n).1.nextId ∧
    (∃ t, (get_or_create_exam s n).1.exams = s.exams ++ t) ∧
    lookupExamName (get_or_create_exam s n).1 n = some (get_or_create_exam s n).2 ∧
    (∀ m e, lookupExamName s m = some e →
      lookupExamName (get_or_create_exam s n).1 m = some e) ∧
    ((lookupExamName s n).isSome → (get_or_create_exam s n).1 = s) := by
  unfold get_or_create_exam
  cases h0 : lookupExamName s n with
  | some e =>
    exact ⟨h, rfl, rfl, rfl, rfl, rfl, le_refl _, ⟨[], by simp⟩, h0,
      fun m e1 hm => hm, fun _ => rfl⟩
  | none =>
    have hfind : s.exams.find? (fun e => decide (e.name = n)) = none := h0
    have hnames : ∀ e ∈ s.exams, e.name ≠ n := by
      intro e he
      have := List.find?_eq_none.mp hfind e he
      simpa using this
    obtain ⟨hids, hnm, hfresh⟩ := h
    refine ⟨⟨?_, ?_, ?_⟩, rfl, rfl, rfl, rfl, rfl, Nat.le_succ _,
      ⟨[⟨s.nextId, n⟩], rfl⟩, ?_, ?_, ?_⟩
    · rw [List.map_append, List.nodup_append]
      refine ⟨hids, by simp, ?_⟩
      intro a ha hb
      simp only [List.map_cons, List.map_nil, List.mem_singleton] at hb
      subst hb
      obtain ⟨e, he, heid⟩ := List.mem_map.mp ha
      exact absurd heid (Nat.ne_of_lt (hfresh e he))
    · rw [List.map_append, List.nodup_append]
      refine ⟨hnm, by simp, ?_⟩
      intro a ha hb
      simp only [List.map_cons, List.map_nil, List.mem_singleton] at hb
      subst hb
      obtain ⟨e, he, hen⟩ := List.mem_map.mp ha
      exact absurd hen (hnames e he)
    · intro e he
      rcases List.mem_append.mp he with he | he
      · exact Nat.lt_succ_of_lt (hfresh e he)
      · simp only [List.mem_singleton] at he
        subst he
        exact Nat.lt_succ_self _
    · unfold lookupExamName
      rw [List.find?_append, hfind]
      simp [List.find?]
    · intro m e1 hm
      unfold lookupExamName at hm ⊢
      rw [List.find?_append, hm]
      rfl
    · intro hcontra
      simp at hcontra

theorem insertDiagStep_spec (cid : Nat) (em : List (String × RatingEntry DiagRating))
    (s : Store) (n : String) (h : DiagInv s) :
    DiagInv (insertDiagStep cid em s n) ∧
    (insertDiagStep cid em s n).patients = s.patients ∧
    (insertDiagStep cid em s n).consultations = s.consultations ∧
    (insertDiagStep cid em s n).exams = s.exams ∧
    (insertDiagStep cid em s n).consultationExams = s.consultationExams ∧
    s.nextId ≤ (insertDiagStep cid em s n).nextId ∧
    (∃ t, (insertDiagStep cid em s n).diagnoses = s.diagnoses ++ t) ∧
    (∀ m d, lookupDiagName s m = some d →
      lookupDiagName (insertDiagStep cid em s n) m = some d) ∧
    (lookupDiagName (insertDiagStep cid em s n) n).isSome ∧
    (insertDiagStep cid em s n).consultationDiagnoses =
      s.consultationDiagnoses ++ [diagRowFor (insertDiagStep cid em s n) cid em n] ∧
    ((lookupDiagName s n).isSome →
      (insertDiagStep cid em s n).diagnoses = s.diagnoses ∧
      (insertDiagStep cid em s n).nextId = s.nextId) := by
  obtain ⟨g_inv, g_pat, g_con, g_ex, g_cd, g_ce, g_next, g_diag, g_lookup, g_stable, g_ng⟩ :=
    get_or_create_diagnosis_spec s n h
  have g_lookup' : lookupDiagName (insertDiagStep cid em s n) n =
      some (get_or_create_diagnosis s n).2 := g_lookup
  have hrow : diagRowFor (insertDiagStep cid em s n) cid em n =
      ⟨cid, (get_or_create_diagnosis s n).2.id, (diagFieldsOf em n).accuracy,
       (diagFieldsOf em n).relevance, (diagFieldsOf em n).usefulness,
       (diagFieldsOf em n).coherence, (diagFieldsOf em n).comments⟩ := by
    unfold diagRowFor diagIdOf
    rw [g_lookup']
    rfl
  refine ⟨g_inv, g_pat, g_con, g_ex, g_ce, g_next, g_diag,
    fun m d hm => g_stable m d hm,
    Option.isSome_iff_exists.mpr ⟨_, g_lookup'⟩, ?_, ?_⟩
  · rw [hrow, ← g_cd]
    rfl
  · intro hs
    constructor
    · rw [show (insertDiagStep cid em s n).diagnoses =
          (get_or_create_diagnosis s n).1.diagnoses from rfl, g_ng hs]
    · rw [show (insertDiagStep cid em s n).nextId =
          (get_or_create_diagnosis s n).1.nextId from rfl, g_ng hs]

theorem insertExamStep_spec (cid : Nat) (em : List (String × RatingEntry ExamRating))
    (s : Store) (n : String) (h : ExamInv s) :
    ExamInv (insertExamStep cid em s n) ∧
    (insertExamStep cid em s n).patients = s.patients ∧
    (insertExamStep cid em s n).consultations = s.consultations ∧
    (insertExamStep cid em s n).diagnoses = s.diagnoses ∧
    (insertExamStep cid em s n).consultationDiagnoses = s.consultationDiagnoses ∧
    s.nextId ≤ (insertExamStep cid em s n).nextId ∧
    (∃ t, (insertExamStep cid em s n).exams = s.exams ++ t) ∧
    (∀ m e, lookupExamName s m = some e →
      lookupExamName (insertExamStep cid em s n) m = some e) ∧
    (lookupExamName (insertExamStep cid em s n) n).isSome ∧
    (insertExamStep cid em s n).consultationExams =
      s.consultationExams ++ [examRowFor (insertExamStep cid em s n) cid em n] ∧
    ((lookupExamName s n).isSome →
      (insertExamStep cid em s n).exams = s.exams ∧
      (insertExamStep cid em s n).nextId = s.nextId) := by
  obtain ⟨g_inv, g_pat, g_con, g_diag, g_cd, g_ce, g_next, g_ex, g_lookup, g_stable, g_ng⟩ :=
    get_or_create_exam_spec s n h
  have g_lookup' : lookupExamName (insertExamStep cid em s n) n =
      some (get_or_create_exam s n).2 := g_lookup
  have hrow : examRowFor (insertExamStep cid em s n) cid em n =
      ⟨cid, (get_or_create_exam s n).2.id, (examFieldsOf em n).accuracy,
       (examFieldsOf em n).relevance, (examFieldsOf em n).usefulness,
       (examFieldsOf em n).coherence, (examFieldsOf em n).safety,
       (examFieldsOf em n).comments⟩ := by
    unfold examRowFor examIdOf
    rw [g_lookup']
    rfl
  refine ⟨g_inv, g_pat, g_con, g_diag, g_cd, g_next, g_ex,
    fun m e hm => g_stable m e hm,
    Option.isSome_iff_exists.mpr ⟨_, g_lookup'⟩, ?_, ?_⟩
  · rw [hrow, ← g_ce]
    rfl
  · intro hs
    constructor
    · rw [show (insertExamStep cid em s n).exams =
          (get_or_create_exam s n).1.exams from rfl, g_ng hs]
    · rw [show (insertExamStep cid em s n).nextId =
          (get_or_create_exam s n).1.nextId from rfl, g_ng hs]

theorem insertDiagnoses_spec (cid : Nat) (em : List (String × RatingEntry DiagRating)) :
    ∀ (names : List String) (s : Store), DiagInv s →
      DiagInv (insertDiagnoses cid em s names) ∧
      (insertDiagnoses cid em s names).patients = s.patients ∧
      (insertDiagnoses cid em s names).consultations = s.consultations ∧
      (insertDiagnoses cid em s names).exams = s.exams ∧
      (insertDiagnoses cid em s names).consultationExams = s.consultationExams ∧
      s.nextId ≤ (insertDiagnoses cid em s names).nextId ∧
      (∃ t, (insertDiagnoses cid em s names).diagnoses = s.diagnoses ++ t) ∧
      (∀ m d, lookupDiagName s m = some d →
        lookupDiagName (insertDiagnoses cid em s names) m = some d) ∧
      (∀ n ∈ names, (lookupDiagName (insertDiagnoses cid em s names) n).isSome) ∧
      (insertDiagnoses cid em s names).consultationDiagnoses =
        s.consultationDiagnoses ++
          names.map (fun n => diagRowFor (insertDiagnoses cid em s names) cid em n) ∧
      ((∀ n ∈ names, (lookupDiagName s n).isSome) →
        (insertDiagnoses cid em s names).diagnoses = s.diagnoses ∧
        (insertDiagnoses cid em s names).nextId = s.nextId)
  | [], s, h => ⟨h, rfl, rfl, rfl, rfl, le_refl _, ⟨[], (List.append_nil _).symm⟩,
      fun m d hm => hm, by simp, by simp [insertDiagnoses], fun _ => ⟨rfl, rfl⟩⟩
  | n :: rest, s, h => by
    obtain ⟨s_inv, s_pat, s_con, s_ex, s_ce, s_next, ⟨t0, s_diag⟩, s_stable, s_somen, s_cd, s_ng⟩ :=
      insertDiagStep_spec cid em s n h
    obtain ⟨i_inv, i_pat, i_con, i_ex, i_ce, i_next, ⟨t1, i_diag⟩, i_stable, i_some, i_cd, i_ng⟩ :=
      insertDiagnoses_spec cid em rest (insertDiagStep cid em s n) s_inv
    have hunfold : insertDiagnoses cid em s (n :: rest) =
        insertDiagnoses cid em (insertDiagStep cid em s n) rest := rfl
    rw [hunfold]
    obtain ⟨d, hd⟩ := Option.isSome_iff_exists.mp s_somen
    refine ⟨i_inv, i_pat.trans s_pat, i_con.trans s_con, i_ex.trans s_ex, i_ce.trans s_ce,
      le_trans s_next i_next, ⟨t0 ++ t1, by rw [i_diag, s_diag, List.append_assoc]⟩,
      fun m d1 hm => i_stable m d1 (s_stable m d1 hm), ?_, ?_, ?_⟩
    · intro m hm
      rcases List.mem_cons.mp hm with hm | hm
      · subst hm
        exact Option.isSome_iff_exists.mpr ⟨d, i_stable m d hd⟩
      · exact i_some m hm
    · rw [i_cd, s_cd, List.append_assoc, List.map_cons, List.singleton_append]
      congr 2
      unfold diagRowFor diagIdOf
      rw [hd, i_stable n d hd]
    · intro hall
      have hn : (lookupDiagName s n).isSome := hall n (List.mem_cons_self n rest)
      obtain ⟨hd1, hn1⟩ := s_ng hn
      have hrest : ∀ m ∈ rest, (lookupDiagName (insertDiagStep cid em s n) m).isSome := by
        intro m hm
        have hms := hall m (List.mem_cons_of_mem n hm)
        rwa [lookupDiagName_congr (insertDiagStep cid em s n) s m hd1]
      obtain ⟨hd2, hn2⟩ := i_ng hrest
      exact ⟨hd2.trans hd1, hn2.trans hn1⟩

theorem insertExams_spec (cid : Nat) (em : List (String × RatingEntry ExamRating)) :
    ∀ (names : List String) (s : Store), ExamInv s →
      ExamInv (insertExams cid em s names) ∧
      (insertExams cid em s names).patients = s.patients ∧
      (insertExams cid em s names).consultations = s.consultations ∧
      (insertExams cid em s names).diagnoses = s.diagnoses ∧
      (insertExams cid em s names).consultationDiagnoses = s.consultationDiagnoses ∧
      s.nextId ≤ (insertExams cid em s names).nextId ∧
      (∃ t, (insertExams cid em s names).exams = s.exams ++ t) ∧
      (∀ m e, lookupExamName s m = some e →
        lookupExamName (insertExams cid em s names) m = some e) ∧
      (∀ n ∈ names, (lookupExamName (insertExams cid em s names) n).isSome) ∧
      (insertExams cid em s names).consultationExams =
        s.consultationExams ++
          names.map (fun n => examRowFor (insertExams cid em s names) cid em n) ∧
      ((∀ n ∈ names, (lookupExamName s n).isSome) →
        (insertExams cid em s names).exams = s.exams ∧
        (insertExams cid em s names).nextId = s.nextId)
  | [], s, h => ⟨h, rfl, rfl, rfl, rfl, le_refl _, ⟨[], (List.append_nil _).symm⟩,
      fun m e hm => hm, by simp, by simp [insertExams], fun _ => ⟨rfl, rfl⟩⟩
  | n :: rest, s, h => by
    obtain ⟨s_inv, s_pat, s_con, s_diag, s_cd, s_next, ⟨t0, s_ex⟩, s_stable, s_somen, s_ce, s_ng⟩ :=
      insertExamStep_spec cid em s n h
    obtain ⟨i_inv, i_pat, i_con, i_diag, i_cd, i_next, ⟨t1, i_ex⟩, i_stable, i_some, i_ce, i_ng⟩ :=
      insertExams_spec cid em rest (insertExamStep cid em s n) s_inv
    have hunfold : insertExams cid em s (n :: rest) =
        insertExams cid em (insertExamStep cid em s n) rest := rfl
    rw [hunfold]
    obtain ⟨e, he⟩ := Option.isSome_iff_exists.mp s_somen
    refine ⟨i_inv, i_pat.trans s_pat, i_con.trans s_con, i_diag.trans s_diag, i_cd.trans s_cd,
      le_trans s_next i_next, ⟨t0 ++ t1, by rw [i_ex, s_ex, List.append_assoc]⟩,
      fun m e1 hm => i_stable m e1 (s_stable m e1 hm), ?_, ?_, ?_⟩
    · intro m hm
      rcases List.mem_cons.mp hm with hm | hm
      · subst hm
        exact Option.isSome_iff_exists.mpr ⟨e, i_stable m e he⟩
      · exact i_some m hm
    · rw [i_ce, s_ce, List.append_assoc, List.map_cons, List.singleton_append]
      congr 2
      unfold examRowFor examIdOf
      rw [he, i_stable n e he]
    · intro hall
      have hn : (lookupExamName s n).isSome := hall n (List.mem_cons_self n rest)
      obtain ⟨he1, hn1⟩ := s_ng hn
      have hrest : ∀ m ∈ rest, (lookupExamName (insertExamStep cid em s n) m).isSome := by
        intro m hm
        have hms := hall m (List.mem_cons_of_mem n hm)
        rwa [lookupExamName_congr (insertExamStep cid em s n) s m he1]
      obtain ⟨he2, hn2⟩ := i_ng hrest
      exact ⟨he2.trans he1, hn2.trans hn1⟩

theorem get_patient_by_uuid_congr (s s' : Store) (uuid : String)
    (h : s.patients = s'.patients) :
    get_patient_by_uuid s uuid = get_patient_by_uuid s' uuid := by
  unfold get_patient_by_uuid
  rw [h]

theorem lookupDiagName_mem_name (s : Store) (n : String) (d : DiagnosisRow)
    (h : lookupDiagName s n = some d) : d ∈ s.diagnoses ∧ d.name = n := by
  refine ⟨List.mem_of_find?_eq_some h, ?_⟩
  have := List.find?_some h
  simpa using this

theorem lookupExamName_mem_name (s : Store) (n : String) (e : ExamRow)
    (h : lookupExamName s n = some e) : e ∈ s.exams ∧ e.name = n := by
  refine ⟨List.mem_of_find?_eq_some h, ?_⟩
  have := List.find?_some h
  simpa using this

theorem diagIds_nodup (s : Store) (h : DiagInv s) (names : List String)
    (hnd : names.Nodup) (hsome : ∀ n ∈ names, (lookupDiagName s n).isSome) :
    (names.map (fun n => diagIdOf s n)).Nodup := by
  refine List.Nodup.map_on ?_ hnd
  intro x hx y hy hxy
  obtain ⟨dx, hdx⟩ := Option.isSome_iff_exists.mp (hsome x hx)
  obtain ⟨dy, hdy⟩ := Option.isSome_iff_exists.mp (hsome y hy)
  obtain ⟨hdxm, hdxn⟩ := lookupDiagName_mem_name s x dx hdx
  obtain ⟨hdym, hdyn⟩ := lookupDiagName_mem_name s y dy hdy
  unfold diagIdOf at hxy
  rw [hdx, hdy] at hxy
  simp only [Option.map_some', Option.getD_some] at hxy
  have : dx = dy := List.inj_on_of_nodup_map h.1 hdxm hdym hxy
  rw [← hdxn, ← hdyn, this]

theorem examIds_nodup (s : Store) (h : ExamInv s) (names : List String)
    (hnd : names.Nodup) (hsome : ∀ n ∈ names, (lookupExamName s n).isSome) :
    (names.map (fun n => examIdOf s n)).Nodup := by
  refine List.Nodup.map_on ?_ hnd
  intro x hx y hy hxy
  obtain ⟨ex, hex⟩ := Option.isSome_iff_exists.mp (hsome x hx)
  obtain ⟨ey, hey⟩ := Option.isSome_iff_exists.mp (hsome y hy)
  obtain ⟨hexm, hexn⟩ := lookupExamName_mem_name s x ex hex
  obtain ⟨heym, heyn⟩ := lookupExamName_mem_name s y ey hey
  unfold examIdOf at hxy
  rw [hex, hey] at hxy
  simp only [Option.map_some', Option.getD_some] at hxy
  have : ex = ey := List.inj_on_of_nodup_map h.1 hexm heym hxy
  rw [← hexn, ← heyn, this]

theorem update_consultation_eq (s : Store) (uuid : String) (r : FullRecord)
    (p : PatientRow) (c0 : ConsultationRow)
    (hp : get_patient_by_uuid s uuid = some p)
    (hc : (patientConsultations s p.id).getLast? = some c0) :
    update_consultation s uuid r =
      (applyExamPhase
        (applyDiagPhase (wipeAssociations s (reviseConsultation c0 r)) c0.id r)
        c0.id r,
       some p.id) := by
  have hres : resolveConsultation s p.id = (s, c0) := by
    unfold resolveConsultation
    rw [hc]
  simp only [update_consultation, hp, hres]
  rfl

theorem update_consultation_spec (s : Store) (uuid : String) (r : FullRecord)
    (p : PatientRow) (c0 : ConsultationRow)
    (hdi : DiagInv s) (hei : ExamInv s)
    (hp : get_patient_by_uuid s uuid = some p)
    (hc : (patientConsultations s p.id).getLast? = some c0) :
    (update_consultation s uuid r).2 = some p.id ∧
    UpdateOutcome s r p c0 (update_consultation s uuid r).1 := by
  rw [update_consultation_eq s uuid r p c0 hp hc]
  refine ⟨rfl, ?_⟩
  rw [applyDiagPhase_eq, applyExamPhase_eq]
  set W := wipeAssociations s (reviseConsultation c0 r) with hW
  set S3 := insertDiagnoses c0.id (diagEvalMap r) W (diagSelections r) with hS3
  set S4 := insertExams c0.id (examEvalMap r) S3 (examSelections r) with hS4
  show UpdateOutcome s r p c0 S4
  obtain ⟨d_inv, d_pat, d_con, d_ex, d_ce, d_next, ⟨td, d_diag⟩, d_stable, d_some, d_cd, d_ng⟩ :=
    insertDiagnoses_spec c0.id (diagEvalMap r) (diagSelections r) W (show DiagInv W from hdi)
  rw [← hS3] at d_inv d_pat d_con d_ex d_ce d_next d_diag d_stable d_some d_cd d_ng
  have he3 : ExamInv S3 := examInv_mono W S3 (show ExamInv W from hei) d_ex d_next
  obtain ⟨e_inv, e_pat, e_con, e_diag, e_cd, e_next, ⟨te, e_ex⟩, e_stable, e_some, e_ce, e_ng⟩ :=
    insertExams_spec c0.id (examEvalMap r) (examSelections r) S3 he3
  rw [← hS4] at e_inv e_pat e_con e_diag e_cd e_next e_ex e_stable e_some e_ce e_ng
  have hWpat : W.patients = s.patients := rfl
  have hWcon : W.consultations = replaceConsultation s.consultations (reviseConsultation c0 r) := rfl
  have hWcd : W.consultationDiagnoses =
      s.consultationDiagnoses.filter (fun x => decide (x.consultation_id ≠ c0.id)) := rfl
  have hWce : W.consultationExams =
      s.consultationExams.filter (fun x => decide (x.consultation_id ≠ c0.id)) := rfl
  have hWdiag : W.diagnoses = s.diagnoses := rfl
  have hWex : W.exams = s.exams := rfl
  have hWnext : W.nextId = s.nextId := rfl
  refine
    { ret_patients := by rw [e_pat, d_pat, hWpat]
      ret_consults := by rw [e_con, d_con, hWcon]
      ret_cd := ?_
      ret_ce := by rw [e_ce, d_ce, hWce]
      diag_some := ?_
      exam_some := e_some
      diag_inv := diagInv_mono S3 S4 d_inv e_diag e_next
      exam_inv := e_inv
      diags_ext := ⟨td, by rw [e_diag, d_diag, hWdiag]⟩
      exams_ext := ⟨te, by rw [e_ex, d_ex, hWex]⟩
      nextId_mono := by rw [← hWnext]; exact le_trans d_next e_next
      no_growth := ?_ }
  · rw [e_cd, d_cd, hWcd]
    congr 1
    apply List.map_congr_left
    intro n _
    exact diagRowFor_congr S3 S4 c0.id (diagEvalMap r) n e_diag.symm
  · intro n hn
    rw [lookupDiagName_congr S4 S3 n e_diag]
    exact d_some n hn
  · intro hdall heall
    have hdallW : ∀ n ∈ diagSelections r, (lookupDiagName W n).isSome := hdall
    obtain ⟨hng1, hng2⟩ := d_ng hdallW
    have heall3 : ∀ n ∈ examSelections r, (lookupExamName S3 n).isSome := by
      intro n hn
      rw [lookupExamName_congr S3 W n d_ex]
      exact heall n hn
    obtain ⟨hng3, hng4⟩ := e_ng heall3
    refine ⟨?_, ?_, ?_⟩
    · rw [e_diag, hng1, hWdiag]
    · rw [hng3, d_ex, hWex]
    · rw [hng4, hng2, hWnext]

theorem head_filter_replace_aux :
    ∀ (m : List ConsultationRow) (c0 c : ConsultationRow) (pid : Nat),
      (m.map (fun x => x.id)).Nodup →
      (m.filter (fun x => decide (x.patient_id = some pid))).head? = some c0 →
      c.id = c0.id → c.patient_id = c0.patient_id →
      ((m.map (fun x => if x.id = c.id then c else x)).filter
        (fun x => decide (x.patient_id = some pid))).head? = some c
  | [], c0, c, pid, _, hhead, _, _ => by simp at hhead
  | x :: t, c0, c, pid, hid, hhead, hcid, hpid => by
    rw [List.map_cons, List.nodup_cons] at hid
    rw [List.map_cons]
    by_cases hx : x.patient_id = some pid
    · rw [List.filter_cons_of_pos (by simpa using hx)] at hhead
      rw [List.head?_cons, Option.some.injEq] at hhead
      subst hhead
      have hxid : x.id = c.id := hcid.symm
      rw [if_pos hxid]
      have hcpid : c.patient_id = some pid := by rw [hpid]; exact hx
      rw [List.filter_cons_of_pos (by simpa using hcpid), List.head?_cons]
    · rw [List.filter_cons_of_neg (by simpa using hx)] at hhead
      have hc0t : c0 ∈ t := by
        have hmem : c0 ∈ t.filter (fun x => decide (x.patient_id = some pid)) := by
          cases hft : t.filter (fun x => decide (x.patient_id = some pid)) with
          | nil => rw [hft] at hhead; simp at hhead
          | cons y ys =>
            rw [hft, List.head?_cons, Option.some.injEq] at hhead
            rw [← hhead]
            exact List.mem_cons_self y ys
        exact List.mem_of_mem_filter hmem
      have hxne : x.id ≠ c.id := by
        rw [hcid]
        intro hxc
        exact hid.1 (hxc ▸ List.mem_map_of_mem (fun x => x.id) hc0t)
      rw [if_neg hxne, List.filter_cons_of_neg (by simpa using hx)]
      exact head_filter_replace_aux t c0 c pid hid.2 hhead hcid hpid

theorem getLast_patientConsultations_replace (l : List ConsultationRow)
    (c0 c : ConsultationRow) (pid : Nat)
    (hid : (l.map (fun x => x.id)).Nodup)
    (hlast : (l.filter (fun x => decide (x.patient_id = some pid))).getLast? = some c0)
    (hcid : c.id = c0.id) (hpid : c.patient_id = c0.patient_id) :
    ((replaceConsultation l c).filter
        (fun x => decide (x.patient_id = some pid))).getLast? = some c := by
  unfold replaceConsultation
  rw [List.getLast?_eq_head?_reverse] at hlast ⊢
  rw [← List.filter_reverse] at hlast ⊢
  rw [← List.map_reverse]
  apply head_filter_replace_aux l.reverse c0 c pid ?_ hlast hcid hpid
  rw [List.map_reverse]
  exact List.nodup_reverse.mpr hid

/-- C10: when the `evaluations` mapping lacks the `ai_diag` key or the
record lacks `selected_diagnoses` (resp. `ai_exam` / `selected_exams`),
`update_consultation` still unconditionally deletes every existing
diagnosis (resp. exam) association row of the consultation and inserts
none, leaving it with zero selections. -/
theorem c10_wholesale_delete_unguarded (s : Store) (uuid : String) (r : FullRecord)
    (p : PatientRow) (c0 : ConsultationRow)
    (hwf : s.WF)
    (hp : get_patient_by_uuid s uuid = some p)
    (hc : (patientConsultations s p.id).getLast? = some c0) :
    ((r.evaluations.ai_diag = none ∨ r.selected_diagnoses = none) →
      selectedDiagnosesOf (update_consultation s uuid r).1 c0.id = []) ∧
    ((r.evaluations.ai_exam = none ∨ r.selected_exams = none) →
      selectedExamsOf (update_consultation s uuid r).1 c0.id = []) := by
  obtain ⟨_, outc⟩ :=
    update_consultation_spec s uuid r p c0 hwf.diagInv hwf.examInv hp hc
  constructor
  · intro hguard
    unfold selectedDiagnosesOf
    rw [outc.ret_cd, diagSelections_eq_nil r hguard]
    simp only [List.map_nil, List.append_nil]
    rw [List.filter_eq_nil_iff]
    intro a ha
    have h2 := (List.mem_filter.mp ha).2
    simp only [decide_eq_true_eq] at h2 ⊢
    exact h2
  · intro hguard
    unfold selectedExamsOf
    rw [outc.ret_ce, examSelections_eq_nil r hguard]
    simp only [List.map_nil, List.append_nil]
    rw [List.filter_eq_nil_iff]
    intro a ha
    have h2 := (List.mem_filter.mp ha).2
    simp only [decide_eq_true_eq] at h2 ⊢
    exact h2

/-- C10 witness: on the demo store, a record without the `ai_diag`
evaluation key wipes the consultation's diagnosis selections. -/
theorem c10_witness :
    selectedDiagnosesOf (update_consultation sDemo "u-1" rNoDiagKey).1 cDemo.id = [] :=
  (c10_wholesale_delete_unguarded sDemo "u-1" rNoDiagKey pDemo cDemo
    ⟨by decide, by decide, by decide, by decide, by decide, by decide, by decide,
     by decide, by decide, by decide, by decide, by decide⟩ rfl rfl).1 (Or.inl rfl)

/-- C4 counterexample: updating the demo patient with a record that
selects diagnosis `X` while its `ai_diag` evaluation mapping has no entry
for `X` still creates an association row for `X` (with every rating field
empty) — creation is not skipped, contradicting the claim. -/
theorem c4_counterexample :
    (update_consultation sDemo "u-1" rNoRating).1.consultationDiagnoses =
      [⟨2, 5, none, none, none, none, none⟩] := rfl

/-- C4 (amended): when both guards hold, every selected diagnosis
(resp. exam) name gets exactly one association row — also the names
without a rating entry, whose rating fields are all left empty; names
with a rating entry carry the fields of the entry, with a `ratings`
sub-mapping unwrapped. -/
theorem c4_unrated_names_get_empty_rows (s : Store) (uuid : String) (r : FullRecord)
    (p : PatientRow) (c0 : ConsultationRow)
    (em : List (String × RatingEntry DiagRating)) (ns : List String)
    (eme : List (String × RatingEntry ExamRating)) (nse : List String)
    (hwf : s.WF)
    (hp : get_patient_by_uuid s uuid = some p)
    (hc : (patientConsultations s p.id).getLast? = some c0)
    (hem : r.evaluations.ai_diag = some em)
    (hns : r.selected_diagnoses = some ns)
    (heme : r.evaluations.ai_exam = some eme)
    (hnse : r.selected_exams = some nse) :
    selectedDiagnosesOf (update_consultation s uuid r).1 c0.id =
      ns.map (fun n => diagRowFor (update_consultation s uuid r).1 c0.id em n) ∧
    selectedExamsOf (update_consultation s uuid r).1 c0.id =
      nse.map (fun n => examRowFor (update_consultation s uuid r).1 c0.id eme n) ∧
    (∀ n, em.find? (fun kv => decide (kv.1 = n)) = none →
      diagFieldsOf em n = emptyDiagRating) ∧
    (∀ n, eme.find? (fun kv => decide (kv.1 = n)) = none →
      examFieldsOf eme n = emptyExamRating) := by
  obtain ⟨_, outc⟩ :=
    update_consultation_spec s uuid r p c0 hwf.diagInv hwf.examInv hp hc
  have hseld : diagSelections r = ns := by
    unfold diagSelections
    rw [hem, hns]
  have hmapd : diagEvalMap r = em := by
    unfold diagEvalMap
    rw [hem, hns]
  have hsele : examSelections r = nse := by
    unfold examSelections
    rw [heme, hnse]
  have hmape : examEvalMap r = eme := by
    unfold examEvalMap
    rw [heme, hnse]
  refine ⟨?_, ?_, ?_, ?_⟩
  · unfold selectedDiagnosesOf
    rw [outc.ret_cd, hseld, hmapd, List.filter_append]
    have h1 : (s.consultationDiagnoses.filter
        (fun x => decide (x.consultation_id ≠ c0.id))).filter
          (fun x => decide (x.consultation_id = c0.id)) = [] := by
      rw [List.filter_eq_nil_iff]
      intro a ha
      have h2 := (List.mem_filter.mp ha).2
      simp only [decide_eq_true_eq] at h2 ⊢
      exact h2
    have h2 : (ns.map (fun n =>
        diagRowFor (update_consultation s uuid r).1 c0.id em n)).filter
          (fun x => decide (x.consultation_id = c0.id)) =
        ns.map (fun n => diagRowFor (update_consultation s uuid r).1 c0.id em n) := by
      rw [List.filter_eq_self]
      intro a ha
      obtain ⟨n, _, hn⟩ := List.mem_map.mp ha
      rw [← hn]
      simp [diagRowFor]
    rw [h1, h2, List.nil_append]
  · unfold selectedExamsOf
    rw [outc.ret_ce, hsele, hmape, List.filter_append]
    have h1 : (s.consultationExams.filter
        (fun x => decide (x.consultation_id ≠ c0.id))).filter
          (fun x => decide (x.consultation_id = c0.id)) = [] := by
      rw [List.filter_eq_nil_iff]
      intro a ha
      have h2 := (List.mem_filter.mp ha).2
      simp only [decide_eq_true_eq] at h2 ⊢
      exact h2
    have h2 : (nse.map (fun n =>
        examRowFor (update_consultation s uuid r).1 c0.id eme n)).filter
          (fun x => decide (x.consultation_id = c0.id)) =
        nse.map (fun n => examRowFor (update_consultation s uuid r).1 c0.id eme n) := by
      rw [List.filter_eq_self]
      intro a ha
      obtain ⟨n, _, hn⟩ := List.mem_map.mp ha
      rw [← hn]
      simp [examRowFor]
    rw [h1, h2, List.nil_append]
  · intro n hnone
    unfold diagFieldsOf
    rw [hnone]
  · intro n hnone
    unfold examFieldsOf
    rw [hnone]

/-- C4 witness for the amended claim: the demo record rates `Flu` (wrapped
ratings) and leaves `Cold` and the exam `X-ray` unrated; one row per
selected name is created nonetheless. -/
theorem c4_witness :
    selectedDiagnosesOf (update_consultation sDemo "u-1" rDemo).1 cDemo.id =
      ["Flu", "Cold"].map (fun n =>
        diagRowFor (update_consultation sDemo "u-1" rDemo).1 cDemo.id
          [("Flu", .wrapped ⟨some 5, some 4, none, none, some "ok"⟩)] n) ∧
    selectedExamsOf (update_consultation sDemo "u-1" rDemo).1 cDemo.id =
      ["X-ray"].map (fun n =>
        examRowFor (update_consultation sDemo "u-1" rDemo).1 cDemo.id [] n) ∧
    (∀ n, ([("Flu", RatingEntry.wrapped (⟨some 5, some 4, none, none, some "ok"⟩ : DiagRating))].find?
        (fun kv => decide (kv.1 = n)) = none) →
      diagFieldsOf [("Flu", .wrapped ⟨some 5, some 4, none, none, some "ok"⟩)] n = emptyDiagRating) ∧
    (∀ n, (([] : List (String × RatingEntry ExamRating)).find?
        (fun kv => decide (kv.1 = n)) = none) →
      examFieldsOf [] n = emptyExamRating) :=
  c4_unrated_names_get_empty_rows sDemo "u-1" rDemo pDemo cDemo
    [("Flu", .wrapped ⟨some 5, some 4, none, none, some "ok"⟩)] ["Flu", "Cold"] [] ["X-ray"]
    ⟨by decide, by decide, by decide, by decide, by decide, by decide, by decide,
     by decide, by decide, by decide, by decide, by decide⟩ rfl rfl rfl rfl rfl rfl

/-- C3: after `update_consultation` there is at most one association row
per `(consultation, diagnosis)` and per `(consultation, exam)` pair (the
wholesale delete precedes reinsertion), a second call with the same full
record returns the identical store — hence the same association rows and
the same next step — and rows of the consultation only exist for names
selected by the record, so stale selections disappear. -/
theorem c3_update_idempotent_unique (s : Store) (uuid : String) (r : FullRecord)
    (p : PatientRow) (c0 : ConsultationRow)
    (hwf : s.WF)
    (hp : get_patient_by_uuid s uuid = some p)
    (hc : (patientConsultations s p.id).getLast? = some c0)
    (hnd : (diagSelections r).Nodup) (hne : (examSelections r).Nodup) :
    (update_consultation s uuid r).2 = some p.id ∧
    ((update_consultation s uuid r).1.consultationDiagnoses.map
      (fun x => (x.consultation_id, x.diagnosis_id))).Nodup ∧
    ((update_consultation s uuid r).1.consultationExams.map
      (fun x => (x.consultation_id, x.exam_id))).Nodup ∧
    update_consultation (update_consultation s uuid r).1 uuid r =
      ((update_consultation s uuid r).1, some p.id) ∧
    _get_next_step (update_consultation (update_consultation s uuid r).1 uuid r).1 p =
      _get_next_step (update_consultation s uuid r).1 p ∧
    (∀ row ∈ (update_consultation s uuid r).1.consultationDiagnoses,
      row.consultation_id = c0.id →
      ∃ n ∈ diagSelections r,
        row.diagnosis_id = diagIdOf (update_consultation s uuid r).1 n) ∧
    (∀ row ∈ (update_consultation s uuid r).1.consultationExams,
      row.consultation_id = c0.id →
      ∃ n ∈ examSelections r,
        row.exam_id = examIdOf (update_consultation s uuid r).1 n) := by
  obtain ⟨hret, outc⟩ :=
    update_consultation_spec s uuid r p c0 hwf.diagInv hwf.examInv hp hc
  set S1 := (update_consultation s uuid r).1 with hS1
  have hkeysD : (S1.consultationDiagnoses.map
      (fun x => (x.consultation_id, x.diagnosis_id))).Nodup := by
    rw [outc.ret_cd, List.map_append, List.nodup_append]
    refine ⟨List.Nodup.sublist (List.Sublist.map _ (List.filter_sublist _)) hwf.cd_keys,
      ?_, ?_⟩
    · rw [List.map_map]
      have hcomp : ((fun x : ConsultationDiagnosisRow =>
          (x.consultation_id, x.diagnosis_id)) ∘
          (fun n => diagRowFor S1 c0.id (diagEvalMap r) n)) =
          ((fun i => (c0.id, i)) ∘ (fun n => diagIdOf S1 n)) := rfl
      rw [hcomp, ← List.map_map]
      refine List.Nodup.map ?_ (diagIds_nodup S1 outc.diag_inv (diagSelections r) hnd outc.diag_some)
      intro a b hab
      simpa using hab
    · intro a haF haR
      obtain ⟨x, hxF, hxk⟩ := List.mem_map.mp haF
      obtain ⟨y, hyR, hyk⟩ := List.mem_map.mp haR
      obtain ⟨n, _, hny⟩ := List.mem_map.mp hyR
      have hxne := (List.mem_filter.mp hxF).2
      simp only [decide_eq_true_eq] at hxne
      apply hxne
      have hxy : x.consultation_id = y.consultation_id :=
        congrArg Prod.fst (hxk.trans hyk.symm)
      rw [hxy, ← hny]
      rfl
  have hkeysE : (S1.consultationExams.map
      (fun x => (x.consultation_id, x.exam_id))).Nodup := by
    rw [outc.ret_ce, List.map_append, List.nodup_append]
    refine ⟨List.Nodup.sublist (List.Sublist.map _ (List.filter_sublist _)) hwf.ce_keys,
      ?_, ?_⟩
    · rw [List.map_map]
      have hcomp : ((fun x : ConsultationExamRow =>
          (x.consultation_id, x.exam_id)) ∘
          (fun n => examRowFor S1 c0.id (examEvalMap r) n)) =
          ((fun i => (c0.id, i)) ∘ (fun n => examIdOf S1 n)) := rfl
      rw [hcomp, ← List.map_map]
      refine List.Nodup.map ?_ (examIds_nodup S1 outc.exam_inv (examSelections r) hne outc.exam_some)
      intro a b hab
      simpa using hab
    · intro a haF haR
      obtain ⟨x, hxF, hxk⟩ := List.mem_map.mp haF
      obtain ⟨y, hyR, hyk⟩ := List.mem_map.mp haR
      obtain ⟨n, _, hny⟩ := List.mem_map.mp hyR
      have hxne := (List.mem_filter.mp hxF).2
      simp only [decide_eq_true_eq] at hxne
      apply hxne
      have hxy : x.consultation_id = y.consultation_id :=
        congrArg Prod.fst (hxk.trans hyk.symm)
      rw [hxy, ← hny]
      rfl
  have hp2 : get_patient_by_uuid S1 uuid = some p := by
    rw [get_patient_by_uuid_congr S1 s uuid outc.ret_patients]
    exact hp
  have hc2 : (patientConsultations S1 p.id).getLast? =
      some (reviseConsultation c0 r) := by
    show ((S1.consultations).filter
      (fun x => decide (x.patient_id = some p.id))).getLast? = _
    rw [outc.ret_consults]
    exact getLast_patientConsultations_replace s.consultations c0
      (reviseConsultation c0 r) p.id hwf.consultation_ids hc rfl rfl
  obtain ⟨hret2, outc2⟩ := update_consultation_spec S1 uuid r p
    (reviseConsultation c0 r) outc.diag_inv outc.exam_inv hp2 hc2
  set S2 := (update_consultation S1 uuid r).1 with hS2
  obtain ⟨hng_d, hng_e, hng_n⟩ := outc2.no_growth outc.diag_some outc.exam_some
  have hS2eq : S2 = S1 := by
    apply Store.ext
    · exact outc2.ret_patients
    · rw [outc2.ret_consults, reviseConsultation_idem]
      apply replaceConsultation_eq_self
      intro x hx hxid
      rw [outc.ret_consults] at hx
      exact mem_replaceConsultation_eq s.consultations (reviseConsultation c0 r) x hx hxid
    · exact hng_d
    · exact hng_e
    · rw [outc2.ret_cd]
      have hfilter : S1.consultationDiagnoses.filter
          (fun x => decide (x.consultation_id ≠ (reviseConsultation c0 r).id)) =
          s.consultationDiagnoses.filter (fun x => decide (x.consultation_id ≠ c0.id)) := by
        rw [outc.ret_cd, List.filter_append]
        have h1 : (s.consultationDiagnoses.filter
            (fun x => decide (x.consultation_id ≠ c0.id))).filter
              (fun x => decide (x.consultation_id ≠ (reviseConsultation c0 r).id)) =
            s.consultationDiagnoses.filter (fun x => decide (x.consultation_id ≠ c0.id)) := by
          rw [List.filter_eq_self]
          intro a ha
          exact (List.mem_filter.mp ha).2
        have h2 : ((diagSelections r).map
            (fun n => diagRowFor S1 c0.id (diagEvalMap r) n)).filter
              (fun x => decide (x.consultation_id ≠ (reviseConsultation c0 r).id)) = [] := by
          rw [List.filter_eq_nil_iff]
          intro a ha
          obtain ⟨n, _, hn⟩ := List.mem_map.mp ha
          rw [← hn]
          simp [diagRowFor, reviseConsultation_id]
        rw [h1, h2, List.append_nil]
      rw [hfilter, outc.ret_cd]
      congr 1
      apply List.map_congr_left
      intro n _
      have hcg : diagRowFor S2 (reviseConsultation c0 r).id (diagEvalMap r) n =
          diagRowFor S1 (reviseConsultation c0 r).id (diagEvalMap r) n :=
        diagRowFor_congr _ _ _ _ _ hng_d
      rw [hcg]
      rfl
    · rw [outc2.ret_ce]
      have hfilter : S1.consultationExams.filter
          (fun x => decide (x.consultation_id ≠ (reviseConsultation c0 r).id)) =
          s.consultationExams.filter (fun x => decide (x.consultation_id ≠ c0.id)) := by
        rw [outc.ret_ce, List.filter_append]
        have h1 : (s.consultationExams.filter
            (fun x => decide (x.consultation_id ≠ c0.id))).filter
              (fun x => decide (x.consultation_id ≠ (reviseConsultation c0 r).id)) =
            s.consultationExams.filter (fun x => decide (x.consultation_id ≠ c0.id)) := by
          rw [List.filter_eq_self]
          intro a ha
          exact (List.mem_filter.mp ha).2
        have h2 : ((examSelections r).map
            (fun n => examRowFor S1 c0.id (examEvalMap r) n)).filter
              (fun x => decide (x.consultation_id ≠ (reviseConsultation c0 r).id)) = [] := by
          rw [List.filter_eq_nil_iff]
          intro a ha
          obtain ⟨n, _, hn⟩ := List.mem_map.mp ha
          rw [← hn]
          simp [examRowFor, reviseConsultation_id]
        rw [h1, h2, List.append_nil]
      rw [hfilter, outc.ret_ce]
      congr 1
      apply List.map_congr_left
      intro n _
      have hcg : examRowFor S2 (reviseConsultation c0 r).id (examEvalMap r) n =
          examRowFor S1 (reviseConsultation c0 r).id (examEvalMap r) n :=
        examRowFor_congr _ _ _ _ _ hng_e
      rw [hcg]
      rfl
    · exact hng_n
  have hidem : update_consultation S1 uuid r = (S1, some p.id) := by
    have heta : update_consultation S1 uuid r =
        ((update_consultation S1 uuid r).1, (update_consultation S1 uuid r).2) := rfl
    rw [heta, hret2, ← hS2, hS2eq]
  refine ⟨hret, hkeysD, hkeysE, hidem, by rw [hS2eq], ?_, ?_⟩
  · intro row hrow hcid
    rw [outc.ret_cd] at hrow
    rcases List.mem_append.mp hrow with hF | hR
    · have hne := (List.mem_filter.mp hF).2
      simp only [decide_eq_true_eq] at hne
      exact absurd hcid hne
    · obtain ⟨n, hn, heq⟩ := List.mem_map.mp hR
      refine ⟨n, hn, ?_⟩
      rw [← heq]
      rfl
  · intro row hrow hcid
    rw [outc.ret_ce] at hrow
    rcases List.mem_append.mp hrow with hF | hR
    · have hne := (List.mem_filter.mp hF).2
      simp only [decide_eq_true_eq] at hne
      exact absurd hcid hne
    · obtain ⟨n, hn, heq⟩ := List.mem_map.mp hR
      refine ⟨n, hn, ?_⟩
      rw [← heq]
      rfl

/-- C3 witness at the demo store and record. -/
theorem c3_witness :
    (update_consultation sDemo "u-1" rDemo).2 = some pDemo.id ∧
    ((update_consultation sDemo "u-1" rDemo).1.consultationDiagnoses.map
      (fun x => (x.consultation_id, x.diagnosis_id))).Nodup ∧
    ((update_consultation sDemo "u-1" rDemo).1.consultationExams.map
      (fun x => (x.consultation_id, x.exam_id))).Nodup ∧
    update_consultation (update_consultation sDemo "u-1" rDemo).1 "u-1" rDemo =
      ((update_consultation sDemo "u-1" rDemo).1, some pDemo.id) ∧
    _get_next_step
        (update_consultation (update_consultation sDemo "u-1" rDemo).1 "u-1" rDemo).1
        pDemo =
      _get_next_step (update_consultation sDemo "u-1" rDemo).1 pDemo ∧
    (∀ row ∈ (update_consultation sDemo "u-1" rDemo).1.consultationDiagnoses,
      row.consultation_id = cDemo.id →
      ∃ n ∈ diagSelections rDemo,
        row.diagnosis_id = diagIdOf (update_consultation sDemo "u-1" rDemo).1 n) ∧
    (∀ row ∈ (update_consultation sDemo "u-1" rDemo).1.consultationExams,
      row.consultation_id = cDemo.id →
      ∃ n ∈ examSelections rDemo,
        row.exam_id = examIdOf (update_consultation sDemo "u-1" rDemo).1 n) :=
  c3_update_idempotent_unique sDemo "u-1" rDemo pDemo cDemo
    ⟨by decide, by decide, by decide, by decide, by decide, by decide, by decide,
     by decide, by decide, by decide, by decide, by decide⟩ rfl rfl
    (by decide) (by decide)
